import Mathlib

/-!
# outage_ua_bot: reconciliation engine, update ingestor and command processor

A shallow embedding of `index.mjs` and `src/telegram/api.mjs`.

* The process-wide `messageMap` and `mapDirty` are threaded explicitly in `St`.
* The remote side (Telegram, the PNG verifier) is an arbitrary function `Remote` from the
  number of calls issued so far and the request to a response; every call is appended to
  `St.log`, so a statement can count the calls a run issued.
* A JavaScript object is a list of key/value pairs in `Object.keys` order (a new key takes the
  place `Object.keys` gives it: `Registry.insertNew`), an optional field
  is an `Option`, and the truthiness tests of the source are `truthyStr` / `truthyNum`. The keys
  of an object are distinct; a statement that depends on it assumes it of the list.
* `withTimestamp` and `cacheBustedUrl` only decorate the request body; a request records the
  undecorated values.
-/

set_option autoImplicit false

namespace OutageBot

/-! ## JavaScript strings -/

/-- White space as recognised by `\s` in a regular expression and by `String.prototype.trim`. -/
def isJsSpace (c : Char) : Bool :=
  decide (c.val.toNat ∈ [9, 10, 11, 12, 13, 32, 0xa0, 0x1680, 0x2028, 0x2029, 0x202f, 0x205f,
    0x3000, 0xfeff]) || (decide (0x2000 ≤ c.val.toNat) && decide (c.val.toNat ≤ 0x200a))

/-- Word characters as recognised by `\w`. -/
def isWordChar (c : Char) : Bool :=
  c.isAlphanum || c == '_'

/-- Embeds `s.toLowerCase()`. The source only compares the lowered string with the ASCII texts
`not a member` and `-default`; no character outside ASCII lowers to a letter of these texts, so
lowering the ASCII letters decides the same comparisons. -/
def toLowerCase (s : String) : String :=
  String.mk (s.data.map Char.toLower)

/-- Embeds `s.includes(pat)`. -/
def includes (s pat : String) : Bool :=
  s.data.tails.any (fun t => pat.data.isPrefixOf t)

/-- Embeds `s.trim()`. -/
def trim (s : String) : String :=
  String.mk ((s.data.dropWhile isJsSpace).reverse.dropWhile isJsSpace).reverse

/-- Truthiness of an optional string: present and not empty. -/
def truthyStr : Option String → Bool
  | some s => s != ""
  | none => false

/-- Truthiness of an optional number: present and not zero. -/
def truthyNum : Option Int → Bool
  | some n => n != 0
  | none => false

/-! ## Regular expressions of the command processor -/

/-- Match a lower-case ASCII literal at the head of the input, ignoring case (flag `i`), and
return the rest of the input. -/
def stripLitCI : List Char → List Char → Option (List Char)
  | [], s => some s
  | _ :: _, [] => none
  | p :: ps, c :: cs => if c.toLower == p then stripLitCI ps cs else none

/-- The optional group `(?:@\w+)?`, greedy. It is always followed by `\s+`, so giving back a
word character or skipping the group at an `@` can never lead to a match: the greedy choice is
the only one to consider. -/
def skipMention : List Char → List Char
  | '@' :: rest =>
    if (rest.takeWhile isWordChar).isEmpty then '@' :: rest else rest.dropWhile isWordChar
  | s => s

/-- Group 1 of `/^\s*\/graphenko_caption(?:@\w+)?\s+([\s\S]+)$/i` on `text`, `none` when the
text does not match. `\s+` is greedy and gives back its last character only when nothing else
is left for the group. -/
def capMatch (text : String) : Option String :=
  match stripLitCI "/graphenko_caption".data (text.data.dropWhile isJsSpace) with
  | none => none
  | some s1 =>
    let s2 := skipMention s1
    let ws := s2.takeWhile isJsSpace
    let rest := s2.dropWhile isJsSpace
    if ws.isEmpty then none
    else if !rest.isEmpty then some (String.mk rest)
    else
      match ws.reverse with
      | last :: _ :: _ => some (String.mk [last])
      | _ => none

/-- Group 1 of `/^\s*\/graphenko_image(?:@\w+)?\s+(\S+)\s*$/i` on `text`, `none` when the text
does not match. -/
def imgMatch (text : String) : Option String :=
  match stripLitCI "/graphenko_image".data (text.data.dropWhile isJsSpace) with
  | none => none
  | some s1 =>
    let s2 := skipMention s1
    let ws := s2.takeWhile isJsSpace
    let rest := s2.dropWhile isJsSpace
    let tok := rest.takeWhile (fun c => !isJsSpace c)
    let tail := rest.dropWhile (fun c => !isJsSpace c)
    if ws.isEmpty then none
    else if tok.isEmpty then none
    else if !(tail.dropWhile isJsSpace).isEmpty then none
    else some (String.mk tok)

/-! ## Data model -/

/-- One value of `messageMap`. -/
structure ChatRecord where
  image_url : Option String := none
  caption : Option String := none
  message_id : Option Int := none
  welcome_message_id : Option Int := none
  message_thread_id : Option Int := none
  deriving DecidableEq, Repr

/-- The object `messageMap`: chat id to record, in `Object.keys` order. -/
abbrev Registry := List (String × ChatRecord)

/-- The value of `messageMap[chatId]`. -/
def Registry.get (m : Registry) (chatId : String) : Option ChatRecord :=
  List.lookup chatId m

/-- The effect of `delete messageMap[chatId]`. -/
def Registry.delete (m : Registry) (chatId : String) : Registry :=
  m.filter (fun e => e.1 != chatId)

/-- The array index a key stands for, if any: the key is the decimal numeral, without a
leading zero, of a number below 2^32 - 1. -/
def arrayIndex (k : String) : Option Nat :=
  match k.data with
  | [] => none
  | c :: cs =>
    if cs.isEmpty && c == '0' then some 0
    else if c != '0' && (c :: cs).all Char.isDigit then
      if (c :: cs).foldl (fun a d => 10 * a + (d.toNat - 48)) 0 < 4294967295 then
        some ((c :: cs).foldl (fun a d => 10 * a + (d.toNat - 48)) 0)
      else none
    else none

/-- The key `k1` of an object is listed after a new key `k`: `Object.keys` lists the array
indices first, in ascending order, then the other keys in the order of their creation. -/
def listedAfter (k k1 : String) : Bool :=
  match arrayIndex k, arrayIndex k1 with
  | some n, some n1 => decide (n < n1)
  | some _, none => true
  | none, _ => false

/-- The creation of the property `k` with value `r`, at its place in `Object.keys` order. -/
def Registry.insertNew (k : String) (r : ChatRecord) : Registry → Registry
  | [] => [(k, r)]
  | e :: es => if listedAfter k e.1 then (k, r) :: e :: es else e :: Registry.insertNew k r es

/-- The effect of `if (!messageMap[chatId]) messageMap[chatId] = {}`. -/
def Registry.ensure (m : Registry) (chatId : String) : Registry :=
  if (m.get chatId).isSome then m else Registry.insertNew chatId ({} : ChatRecord) m

/-- An assignment to (or deletion of) fields of the existing record `messageMap[chatId]`. -/
def Registry.modify (m : Registry) (chatId : String) (f : ChatRecord → ChatRecord) : Registry :=
  m.map (fun e => if e.1 == chatId then (e.1, f e.2) else e)

/-- The object `effective` built by the main loop and passed as `chat` to the senders. -/
structure Effective where
  chat_id : String
  image_url : Option String
  message_thread_id : Option Int
  caption : String
  deriving DecidableEq, Repr

/-- A request to the remote side. -/
inductive Request where
  | sendPhoto (chat : Effective)
  | editMessageMedia (chat : Effective) (message_id : Int)
  | pinChatMessage (chat_id : String) (message_id : Option Int)
  | deleteMessage (chat_id : String) (message_id : Int)
  | sendMessage (chat_id : String) (text : String)
  | verifyRemotePng (url : String)
  deriving DecidableEq, Repr

/-- The `result` member of a response, as far as the program reads it. -/
structure TgResult where
  message_id : Option Int
  deriving DecidableEq, Repr

/-- The parsed body of a response. -/
structure Json where
  ok : Bool
  error_code : Option Int := none
  description : Option String := none
  result : Option TgResult := none
  deriving DecidableEq, Repr

/-- What a call yields: a parsed body, or an exception of `fetch` / `res.json()`. -/
inductive Response where
  | networkError
  | json (j : Json)
  deriving DecidableEq, Repr

/-- The remote side: the answer to the `n`-th call of the run. -/
abbrev Remote := Nat → Request → Response

/-- The mutable state of the process. -/
structure St where
  messageMap : Registry
  mapDirty : Bool
  log : List Request := []

/-- Issue one call. -/
def call (remote : Remote) (s : St) (q : Request) : Response × St :=
  (remote s.log.length q, { s with log := s.log ++ [q] })

/-- The object returned by `sendPhoto` and `editPhoto` and pushed to `results`. -/
structure Result where
  ok : Bool
  chat : Effective
  reason : Option String := none
  message_id : Option Int := none
  result : Option TgResult := none
  not_modified : Bool := false
  replaced : Bool := false
  json : Option Json := none
  err : Bool := false
  deriving DecidableEq, Repr

/-! ## index.mjs -/

/-- Embeds `removeChat(chatId, reason)`. -/
def removeChat (s : St) (chatId : String) : Bool × St :=
  if (s.messageMap.get chatId).isSome then
    (true, { s with messageMap := s.messageMap.delete chatId, mapDirty := true })
  else (false, s)

/-- Embeds `typeof json.description === 'string' && json.description.includes(pat)`. -/
def descIncludes (json : Json) (pat : String) : Bool :=
  match json.description with
  | some d => includes d pat
  | none => false

/-- Embeds `typeof json.description === 'string' &&
json.description.toLowerCase().includes('not a member')`. -/
def descNotMember (json : Json) : Bool :=
  match json.description with
  | some d => includes (toLowerCase d) "not a member"
  | none => false

/-- Embeds `pinMessage(chat_id, message_id)` of api.mjs; its result is never read. -/
def pinMessage (remote : Remote) (s : St) (chat_id : String) (message_id : Option Int) : St :=
  (call remote s (.pinChatMessage chat_id message_id)).2

/-- Embeds `sendPhoto(chat)`. -/
def sendPhoto (remote : Remote) (s : St) (chat : Effective) : Result × St :=
  let (res, s) := call remote s (.sendPhoto chat)
  match res with
  | .networkError => ({ ok := false, chat := chat, err := true }, s)
  | .json json =>
    if !json.ok then
      if json.error_code == some 403 && descNotMember json then
        let (_, s) := removeChat s chat.chat_id
        ({ ok := true, chat := chat, reason := some "unregistered" }, s)
      else if json.error_code == some 400 && descIncludes json "TOPIC_CLOSED" then
        ({ ok := true, chat := chat, reason := some "topic-closed" }, s)
      else ({ ok := false, chat := chat, json := some json }, s)
    else
      let messageId := json.result.bind (fun r => r.message_id)
      let s := pinMessage remote s chat.chat_id messageId
      ({ ok := true, chat := chat, message_id := messageId, result := json.result }, s)

/-- Embeds `editPhoto(chat, messageId)`. -/
def editPhoto (remote : Remote) (s : St) (chat : Effective) (messageId : Int) : Result × St :=
  let (res, s) := call remote s (.editMessageMedia chat messageId)
  match res with
  | .networkError => ({ ok := false, chat := chat, err := true }, s)
  | .json json =>
    if !json.ok then
      if json.error_code == some 400 && descIncludes json "message is not modified" then
        let s := pinMessage remote s chat.chat_id (some messageId)
        ({ ok := true, chat := chat, not_modified := true }, s)
      else if json.error_code == some 400 && descIncludes json "TOPIC_CLOSED" then
        ({ ok := true, chat := chat, reason := some "topic-closed" }, s)
      else if json.error_code == some 400 then
        let (sent, s) := sendPhoto remote s chat
        ({ sent with replaced := true }, s)
      else if json.error_code == some 403 && descNotMember json then
        let (_, s) := removeChat s chat.chat_id
        ({ ok := true, chat := chat, reason := some "unregistered" }, s)
      else ({ ok := false, chat := chat, json := some json }, s)
    else
      let s := pinMessage remote s chat.chat_id (some messageId)
      ({ ok := true, chat := chat, result := json.result }, s)

/-- Embeds `updateStoredChatFields(chatId, effective)`. -/
def updateStoredChatFields (s : St) (chatId : String) (effective : Effective) : St :=
  let m := s.messageMap.ensure chatId
  let stored : ChatRecord := (m.get chatId).getD {}
  let t1 := truthyStr effective.image_url && stored.image_url != effective.image_url
  let m := if t1 then m.modify chatId (fun r => { r with image_url := effective.image_url }) else m
  let t2 := effective.caption != "" && stored.caption != some effective.caption
  let m := if t2 then m.modify chatId (fun r => { r with caption := some effective.caption }) else m
  { s with messageMap := m, mapDirty := s.mapDirty || t1 || t2 }

/-- The closure `setMessageId(chatId, messageId)` of the entry point. -/
def setMessageId (s : St) (chatId : String) (messageId : Option Int) : St :=
  if !truthyNum messageId then s
  else
    let m := s.messageMap.ensure chatId
    if ((m.get chatId).bind (fun r => r.message_id)) != messageId then
      { s with messageMap := m.modify chatId (fun r => { r with message_id := messageId }),
               mapDirty := true }
    else { s with messageMap := m }

/-- The object `effective` of one iteration of the main loop. -/
def effectiveOf (DEFAULT_CAPTION : String) (chatId : String) (mapCfg : ChatRecord) : Effective :=
  { chat_id := chatId
    image_url := mapCfg.image_url
    message_thread_id := mapCfg.message_thread_id
    caption := match mapCfg.caption with
      | some c => c
      | none => DEFAULT_CAPTION }

/-- One iteration of the main loop `for (const chatId of allIds)`. -/
def reconcileChat (remote : Remote) (DEFAULT_CAPTION : String) (acc : St × List Result)
    (chatId : String) : St × List Result :=
  let s := acc.1
  let results := acc.2
  let mapCfg : ChatRecord := (s.messageMap.get chatId).getD {}
  let effective := effectiveOf DEFAULT_CAPTION chatId mapCfg
  if effective.chat_id == "" then
    (s, results ++ [{ ok := false, chat := effective, reason := some "invalid-config" }])
  else if !truthyStr effective.image_url then
    (s, results ++ [{ ok := true, chat := effective, reason := some "no-image" }])
  else
    let known := (s.messageMap.get chatId).bind (fun r => r.message_id)
    if !truthyNum known then
      let (r, s) := sendPhoto remote s effective
      if r.ok && r.reason == some "unregistered" then (s, results ++ [r])
      else
        let s := if r.ok && truthyNum r.message_id then setMessageId s chatId r.message_id else s
        let s := updateStoredChatFields s chatId effective
        (s, results ++ [r])
    else
      let (r, s) := editPhoto remote s effective (known.getD 0)
      if r.ok && r.reason == some "unregistered" then (s, results ++ [r])
      else
        let s := if r.ok && r.replaced && truthyNum r.message_id
          then setMessageId s chatId r.message_id else s
        let s := updateStoredChatFields s chatId effective
        (s, results ++ [r])

/-- The main loop over `allIds = Object.keys(messageMap)`, from empty `results`. -/
def reconcile (remote : Remote) (DEFAULT_CAPTION : String) (s : St) : St × List Result :=
  (s.messageMap.map Prod.fst).foldl (reconcileChat remote DEFAULT_CAPTION) (s, [])

/-- The list `failures` computed after the pass. -/
def failures (results : List Result) : List Result :=
  results.filter (fun r => !r.ok && r.reason != some "invalid-config")

/-- The exit code of the process: 10 when `failures` is not empty. -/
def exitCode (results : List Result) : Nat :=
  if (failures results).length != 0 then 10 else 0

/-! ## Inbound events -/

/-- The member `chat` of a membership notice or of a message. -/
structure Chat where
  id : Int
  type : String := "group"
  deriving DecidableEq, Repr

/-- The member `my_chat_member` of an update; `status` is `new_chat_member?.status`. -/
structure ChatMemberUpdated where
  chat : Option Chat
  status : Option String
  deriving DecidableEq, Repr

/-- The member `message` or `channel_post` of an update. -/
structure Message where
  chat : Option Chat
  text : Option String := none
  caption : Option String := none
  message_id : Option Int := none
  deriving DecidableEq, Repr

/-- One element of the array returned by `getUpdates`. -/
structure Update where
  update_id : Int
  my_chat_member : Option ChatMemberUpdated := none
  message : Option Message := none
  channel_post : Option Message := none
  deriving DecidableEq, Repr

/-- One iteration of the loop of `registerFromUpdates`; the accumulator holds the state and
`newlyRegistered`. -/
def registerStep (acc : St × List String) (u : Update) : St × List String :=
  let s := acc.1
  let newlyRegistered := acc.2
  match u.my_chat_member with
  | none => acc
  | some mcm =>
    match mcm.chat with
    | none => acc
    | some chat =>
      if chat.type != "channel" && chat.type != "supergroup" && chat.type != "group" then acc
      else
        let status := mcm.status
        let chatId := toString chat.id
        if status == some "left" || status == some "kicked" || status == some "restricted" then
          let prev := (s.messageMap.get chatId).isSome
          let (removed, s) := removeChat s chatId
          (if removed && prev then { s with mapDirty := true } else s, newlyRegistered)
        else if !(status == some "administrator" || status == some "creator"
            || status == some "member") then acc
        else
          let isNew := !(s.messageMap.get chatId).isSome
          let s := { s with messageMap := s.messageMap.ensure chatId }
          (s, if isNew then newlyRegistered ++ [chatId] else newlyRegistered)

/-- Embeds `registerFromUpdates(updates)`: the new state and `newlyRegistered`. -/
def registerFromUpdates (s : St) (updates : List Update) : St × List String :=
  let acc := updates.foldl registerStep (s, [])
  (if acc.2.length != 0 then { acc.1 with mapDirty := true } else acc.1, acc.2)

/-- Embeds `sendTextMessage(chat_id, text)` of api.mjs: the members `ok` and `result` of its result. -/
def sendTextMessage (remote : Remote) (s : St) (chat_id : String) (text : String) :
    (Bool × Option TgResult) × St :=
  let (res, s) := call remote s (.sendMessage chat_id text)
  match res with
  | .networkError => ((false, none), s)
  | .json json => if !json.ok then ((false, none), s) else ((true, json.result), s)

/-- Embeds `deleteMessage(chat_id, message_id)` of api.mjs: the member `ok` of its result. -/
def deleteMessage (remote : Remote) (s : St) (chat_id : String) (message_id : Int) : Bool × St :=
  let (res, s) := call remote s (.deleteMessage chat_id message_id)
  match res with
  | .networkError => (false, s)
  | .json json => (json.ok, s)

/-- The text sent by `sendWelcomeMessage`. -/
def welcomeText : String := "🤖 GraphenkoBot був успішно підключений. Готовий до подальших команд."

/-- Embeds `sendWelcomeMessage(chat_id)`. -/
def sendWelcomeMessage (remote : Remote) (s : St) (chat_id : String) : St :=
  let (r, s) := sendTextMessage remote s chat_id welcomeText
  if r.1 then
    let messageId := r.2.bind (fun x => x.message_id)
    let m := s.messageMap.ensure chat_id
    if ((m.get chat_id).bind (fun x => x.welcome_message_id)) != messageId then
      { s with messageMap := m.modify chat_id (fun x => { x with welcome_message_id := messageId }),
               mapDirty := true }
    else { s with messageMap := m }
  else s

/-- The loop `for (const chatId of newlyRegistered) await sendWelcomeMessage(chatId)`. -/
def welcomePhase (remote : Remote) (s : St) (newlyRegistered : List String) : St :=
  newlyRegistered.foldl (sendWelcomeMessage remote) s

/-- The ingest step followed by the welcome phase, as the entry point runs them when the
batch holds no message. -/
def ingest (remote : Remote) (s : St) (updates : List Update) : St :=
  let r := registerFromUpdates s updates
  welcomePhase remote r.1 r.2

/-! ## Command processor -/

/-- Embeds `verifyRemotePng(url)` of the absent `utils/url.mjs`, read through the member `ok`
of its result: the verifier is part of the remote side, and a failure of its call is a result
whose `ok` is false. -/
def verifyRemotePng (remote : Remote) (s : St) (url : String) : Bool × St :=
  let (res, s) := call remote s (.verifyRemotePng url)
  match res with
  | .networkError => (false, s)
  | .json json => (json.ok, s)

/-- Embeds `if (msg.message_id) await deleteMessage(chatId, msg.message_id)`. -/
def deleteCommandMessage (remote : Remote) (s : St) (chatId : String) (msg : Message) : St :=
  if truthyNum msg.message_id then (deleteMessage remote s chatId (msg.message_id.getD 0)).2 else s

/-- Embeds `msg.text || msg.caption || ''`. -/
def textOf (msg : Message) : String :=
  if truthyStr msg.text then msg.text.getD ""
  else if truthyStr msg.caption then msg.caption.getD ""
  else ""

/-- One iteration of the loop of `processCommandUpdates`; the accumulator holds the state and
`handled`. `OUTAGE_IMAGES_BASE` and `isValidOutageImageUrl` come from modules that are not part
of the embedded sources. -/
def processCommand (remote : Remote) (OUTAGE_IMAGES_BASE : String)
    (isValidOutageImageUrl : String → Bool) (acc : St × List String) (u : Update) :
    St × List String :=
  let s := acc.1
  let handled := acc.2
  match (u.message <|> u.channel_post) with
  | none => acc
  | some msg =>
    match msg.chat with
    | none => acc
    | some chat =>
      let chatId := toString chat.id
      let text := textOf msg
      if text == "" then acc
      else
        match capMatch text with
        | some raw =>
          let arg := trim raw
          let s := { s with messageMap := s.messageMap.ensure chatId }
          if toLowerCase arg == "-default" then
            let s :=
              if ((s.messageMap.get chatId).bind (fun r => r.caption)).isSome then
                { s with messageMap := s.messageMap.modify chatId (fun r => { r with caption := none }),
                         mapDirty := true }
              else s
            let s := (sendTextMessage remote s chatId
              "✅ Підпис скинуто до стандартного. Буде застосовано під час наступного оновлення.").2
            let s := deleteCommandMessage remote s chatId msg
            (s, handled ++ [chatId])
          else if arg == "" then
            let s := (sendTextMessage remote s chatId
              "❌ Порожній підпис. Спробуйте так: /graphenko_caption Мій власний підпис").2
            (s, handled ++ [chatId])
          else
            let s := { s with
              messageMap := s.messageMap.modify chatId (fun r => { r with caption := some arg }),
              mapDirty := true }
            let s := (sendTextMessage remote s chatId
              "✅ Підпис збережено. Буде застосовано під час наступного оновлення.").2
            let s := deleteCommandMessage remote s chatId msg
            (s, handled ++ [chatId])
        | none =>
          match imgMatch text with
          | none => acc
          | some url =>
            if !isValidOutageImageUrl url then
              let s := (sendTextMessage remote s chatId
                ("❌ Невірний URL. Використовуйте PNG з базою:\n" ++ OUTAGE_IMAGES_BASE
                  ++ "\nприклад: /graphenko_image " ++ OUTAGE_IMAGES_BASE
                  ++ "kyiv/gpv-3-2-emergency.png")).2
              (s, handled ++ [chatId])
            else
              let (ver, s) := verifyRemotePng remote s url
              if !ver then
                let s := (sendTextMessage remote s chatId
                  "❌ Неможливо отримати зображення або воно не PNG. Перевірте URL.").2
                (s, handled ++ [chatId])
              else
                let m := (s.messageMap.ensure chatId).modify chatId
                  (fun r => { r with image_url := some url })
                let s := { s with messageMap := m, mapDirty := true }
                let wid := (s.messageMap.get chatId).bind (fun r => r.welcome_message_id)
                let s :=
                  if truthyNum wid then
                    let (del, s) := deleteMessage remote s chatId (wid.getD 0)
                    if del then
                      { s with
                        messageMap := s.messageMap.modify chatId
                          (fun r => { r with welcome_message_id := none }),
                        mapDirty := true }
                    else s
                  else s
                let s := (sendTextMessage remote s chatId
                  "✅ Зображення збережено. Розсилка увімкнена.").2
                let s := deleteCommandMessage remote s chatId msg
                (s, handled ++ [chatId])

/-- Embeds `processCommandUpdates(updates)`: the new state and `handled`. -/
def processCommandUpdates (remote : Remote) (OUTAGE_IMAGES_BASE : String)
    (isValidOutageImageUrl : String → Bool) (s : St) (updates : List Update) :
    St × List String :=
  updates.foldl (processCommand remote OUTAGE_IMAGES_BASE isValidOutageImageUrl) (s, [])

/-! ## src/telegram/api.mjs: fetching and acknowledging updates -/

/-- What the call of `getUpdates` yields: an exception, or a body with its members `ok` and
`result` (`none` when `result` is not there). -/
inductive UpdatesResponse where
  | networkError
  | json (ok : Bool) (result : Option (List Update))

/-- Embeds `getUpdates(offset)` on a given response: the members `updates` and `lastUpdateId` of its
result. Iterating over an absent `result` throws, and the handler returns the empty batch. -/
def getUpdates (res : UpdatesResponse) : List Update × Option Int :=
  match res with
  | .networkError => ([], none)
  | .json ok result =>
    if !ok then ([], none)
    else
      match result with
      | none => ([], none)
      | some us => (us, us.foldl (fun _ u => some u.update_id) none)

/-- The acknowledgment step of the entry point followed by `ackUpdates(lastUpdateId)`: `none`
when no request is issued, otherwise the member `offset` of the body of the request (absent
when `lastUpdateId + 1` is falsy). -/
def ackUpdates (lastUpdateId : Option Int) : Option (Option Int) :=
  match lastUpdateId with
  | none => none
  | some last => some (if last + 1 != 0 then some (last + 1) else none)

/-! ## Vocabulary of the statements -/

/-- The chat a request is addressed to. -/
def Request.chatId : Request → Option String
  | .sendPhoto chat => some chat.chat_id
  | .editMessageMedia chat _ => some chat.chat_id
  | .pinChatMessage chat_id _ => some chat_id
  | .deleteMessage chat_id _ => some chat_id
  | .sendMessage chat_id _ => some chat_id
  | .verifyRemotePng _ => none

/-- A create call for chat `c`. -/
def isCreateFor (c : String) : Request → Bool
  | .sendPhoto chat => chat.chat_id == c
  | _ => false

/-- An update call for chat `c`. -/
def isEditFor (c : String) : Request → Bool
  | .editMessageMedia chat _ => chat.chat_id == c
  | _ => false

/-- The number of create calls for chat `c` in a log. -/
def createCalls (c : String) (log : List Request) : Nat :=
  log.countP (isCreateFor c)

/-- The number of update calls for chat `c` in a log. -/
def editCalls (c : String) (log : List Request) : Nat :=
  log.countP (isEditFor c)

/-- A response with `ok` false, code 403 and a description holding `not a member` in any
case. -/
def isNotMember403 : Response → Bool
  | .json j => !j.ok && j.error_code == some 403 && descNotMember j
  | .networkError => false

/-- A response with `ok` false and code 400 whose description holds neither
`message is not modified` nor `TOPIC_CLOSED`. -/
def isGeneric400 : Response → Bool
  | .json j => !j.ok && j.error_code == some 400 && !descIncludes j "message is not modified"
      && !descIncludes j "TOPIC_CLOSED"
  | .networkError => false

/-- A response with `ok` false, code 400 and a description holding `message is not modified`. -/
def isNotModified400 : Response → Bool
  | .json j => !j.ok && j.error_code == some 400 && descIncludes j "message is not modified"
  | .networkError => false

/-- A response with `ok` true. -/
def isOk : Response → Bool
  | .json j => j.ok
  | .networkError => false

/-- A response with `ok` true whose result carries the message id `m`. -/
def isOkWithId (m : Int) : Response → Bool
  | .json j => j.ok && j.result.bind (fun r => r.message_id) == some m
  | .networkError => false

/-- A step from `s` to `t` that concerns chat `k` only: the records of the other chats are
left alone, a raised dirty flag stays raised, and the calls issued are addressed to `k`. -/
def Touches (k : String) (s t : St) : Prop :=
  (∀ c, c ≠ k → t.messageMap.get c = s.messageMap.get c) ∧
  (s.mapDirty = true → t.mapDirty = true) ∧
  (∃ extra, t.log = s.log ++ extra ∧ ∀ q ∈ extra, Request.chatId q = some k)

/-- The result the pass pushes for a chat on which it has nothing to change: the no-image skip
when the record has no image, the not-modified outcome otherwise. -/
def unchangedResult (D k : String) (stored : Option ChatRecord) : Result :=
  if truthyStr (stored.getD {}).image_url then
    { ok := true, chat := effectiveOf D k (stored.getD {}), not_modified := true }
  else { ok := true, chat := effectiveOf D k (stored.getD {}), reason := some "no-image" }

/-- A record a successful pass has written back to: when it has an image it has a message id,
and its caption is stored unless the default caption is empty. -/
def Settled (D : String) (rec : ChatRecord) : Prop :=
  truthyStr rec.image_url = true →
    truthyNum rec.message_id = true ∧ (rec.caption = none → D = "")

/-! ## The outcome table of the specification -/

/-- The two kinds of attempt. -/
inductive AttemptKind where
  | create
  | update
  deriving DecidableEq, Repr

/-- The outcomes of the table of the specification. -/
inductive Outcome where
  | success
  | unregister
  | skipBenign
  | fallbackToCreate
  | hardFailure
  deriving DecidableEq, Repr

/-- The table of the specification, read top to bottom, on the attempt kind and the members
`ok`, `error_code` and `description` of the response. -/
def specOutcome (kind : AttemptKind) (ok : Bool) (error_code : Option Int)
    (description : Option String) : Outcome :=
  let has (pat : String) : Bool :=
    match description with
    | some d => includes d pat
    | none => false
  let notMember : Bool :=
    match description with
    | some d => includes (toLowerCase d) "not a member"
    | none => false
  if ok then .success
  else if error_code = some 403 ∧ notMember = true then .unregister
  else if error_code = some 400 ∧ has "TOPIC_CLOSED" = true then .skipBenign
  else if error_code = some 400 ∧ has "message is not modified" = true ∧ kind = .update then
    .skipBenign
  else if error_code = some 400 ∧ kind = .update then .fallbackToCreate
  else .hardFailure

/-- What an attempt that starts in state `s` and ends with `out` shows of each outcome;
`fallback` is the create attempt an update falls back to (`none` for a create attempt). -/
def Realises (o : Outcome) (s : St) (chat : Effective) (fallback : Option (Result × St))
    (out : Result × St) : Prop :=
  match o with
  | .success =>
    out.1.ok = true ∧ out.1.reason = none ∧ out.1.not_modified = false ∧
      out.1.replaced = false ∧ out.2.messageMap = s.messageMap
  | .unregister =>
    out.1.ok = true ∧ out.1.reason = some "unregistered" ∧ out.1.replaced = false ∧
      out.2.messageMap = s.messageMap.delete chat.chat_id
  | .skipBenign =>
    out.1.ok = true ∧ (out.1.reason = some "topic-closed" ∨ out.1.not_modified = true) ∧
      out.1.replaced = false ∧ out.2.messageMap = s.messageMap
  | .fallbackToCreate =>
    match fallback with
    | some sent => out = ({ sent.1 with replaced := true }, sent.2)
    | none => False
  | .hardFailure =>
    out.1.ok = false ∧ out.1.replaced = false ∧ out.2.messageMap = s.messageMap

/-- The outcome the table gives for a response; an exception of the call is none of the
listed conditions. -/
def tableOutcome (kind : AttemptKind) : Response → Outcome
  | .networkError => .hardFailure
  | .json j => specOutcome kind j.ok j.error_code j.description

/-- The maximum `update_id` over all events of a batch, `none` for the empty batch. -/
def maxUpdateId : List Update → Option Int
  | [] => none
  | u :: us =>
    match maxUpdateId us with
    | none => some u.update_id
    | some m => some (max u.update_id m)

/-- A text the command processor changes the registry on when its chat is known: a caption
command with an argument that is not blank, or an image command whose url passes the format
check. -/
def wellFormedText (isValidOutageImageUrl : String → Bool) (text : String) : Bool :=
  match capMatch text with
  | some raw => trim raw != ""
  | none =>
    match imgMatch text with
    | some url => isValidOutageImageUrl url
    | none => false

/-- A membership notice for chat `c` that `registerFromUpdates` acts on: the chat type is
channel, supergroup or group. -/
def memberEventFor (c : String) (u : Update) : Bool :=
  match u.my_chat_member with
  | none => false
  | some mcm =>
    match mcm.chat with
    | none => false
    | some chat =>
      (chat.type == "channel" || chat.type == "supergroup" || chat.type == "group") &&
        toString chat.id == c

/-- The new status of the bot in a membership notice is left, kicked or restricted. -/
def removalEvent (u : Update) : Bool :=
  match u.my_chat_member with
  | none => false
  | some mcm =>
    mcm.status == some "left" || mcm.status == some "kicked" || mcm.status == some "restricted"

/-- The effective configuration a create or update call carries. -/
def Request.effective : Request → Option Effective
  | .sendPhoto chat => some chat
  | .editMessageMedia chat _ => some chat
  | _ => none

/-- A step from `s` to `t` whose calls are all addressed to chat `k`, the create and update
calls among them carrying the configuration `e`. -/
def Sends (k : String) (e : Effective) (s t : St) : Prop :=
  ∃ extra, t.log = s.log ++ extra ∧
    ∀ q ∈ extra, Request.chatId q = some k ∧ ∀ e1, Request.effective q = some e1 → e1 = e

/-! ## Example data -/

/-- The registry of the example scenario of the specification. -/
def exampleRegistry : Registry := [("100", { image_url := some "https://x/a.png" })]

/-- The registry of the example scenario once a message was posted. -/
def postedRegistry : Registry :=
  [("100", { image_url := some "https://x/a.png", message_id := some 7 })]

/-- A remote side on which every call succeeds; a created message gets the id 555. -/
def okRemote : Remote := fun _ q =>
  match q with
  | .sendPhoto _ => .json { ok := true, result := some ⟨some 555⟩ }
  | .sendMessage _ _ => .json { ok := true, result := some ⟨some 7⟩ }
  | _ => .json { ok := true }

/-- A remote side the bot is not a member of. -/
def notMemberRemote : Remote := fun _ _ =>
  .json { ok := false, error_code := some 403,
          description := some "Forbidden: bot is not a member of the channel chat" }

/-- A remote side on which the posted message is gone: an update is answered with a generic
400, a create succeeds with the id 555. -/
def goneRemote : Remote := fun _ q =>
  match q with
  | .editMessageMedia _ _ =>
    .json { ok := false, error_code := some 400,
            description := some "Bad Request: message to edit not found" }
  | .sendPhoto _ => .json { ok := true, result := some ⟨some 555⟩ }
  | _ => .json { ok := true }

/-- A remote side on which nothing changed since the last pass. -/
def sameRemote : Remote := fun _ q =>
  match q with
  | .editMessageMedia _ _ =>
    .json { ok := false, error_code := some 400,
            description := some "Bad Request: message is not modified" }
  | _ => .json { ok := true }

/-- A remote side that refuses to delete messages and accepts everything else. -/
def noDeleteRemote : Remote := fun _ q =>
  match q with
  | .deleteMessage _ _ =>
    .json { ok := false, error_code := some 400,
            description := some "Bad Request: message to delete not found" }
  | _ => .json { ok := true }

/-- A message with the given text in chat -5. -/
def textUpdate (update_id : Int) (text : String) : Update :=
  { update_id := update_id
    message := some { chat := some { id := -5, type := "supergroup" }, text := some text,
                      message_id := some 10 } }

/-- A membership notice for the bot in chat -5. -/
def memberUpdate (update_id : Int) (status : String) : Update :=
  { update_id := update_id
    my_chat_member := some { chat := some { id := -5, type := "supergroup" },
                             status := some status } }

/-- A registry in which chat -5 has a custom caption. -/
def captionRegistry : Registry := [("-5", { caption := some "Custom" })]

/-- A registry in which chat -5 waits for its image, the welcome message 7 still posted. -/
def welcomedRegistry : Registry := [("-5", { welcome_message_id := some 7 })]

/-! # Theorems -/

/-! ## Registry lemmas -/

theorem Registry.get_nil (c : String) : Registry.get [] c = none := rfl

theorem Registry.get_cons (k c : String) (r : ChatRecord) (m : Registry) :
    Registry.get ((k, r) :: m) c = if c = k then some r else Registry.get m c := by
  unfold Registry.get
  rw [List.lookup_cons]
  by_cases h : c = k
  · simp [h]
  · have : (c == k) = false := by simpa using h
    simp [this, h]

theorem Registry.get_delete (m : Registry) (k c : String) :
    (m.delete k).get c = if c = k then none else m.get c := by
  induction m with
  | nil => simp [Registry.delete, Registry.get_nil]
  | cons e m ih =>
    obtain ⟨a, r⟩ := e
    unfold Registry.delete at ih ⊢
    by_cases hak : a = k
    · subst hak
      simp only [List.filter_cons, bne_self_eq_false, Bool.false_eq_true, if_false]
      rw [ih, Registry.get_cons]
      by_cases hc : c = a <;> simp [hc]
    · have : (a != k) = true := by simpa using hak
      simp only [List.filter_cons, this, if_true]
      rw [Registry.get_cons, Registry.get_cons, ih]
      by_cases hc : c = a
      · subst hc; simp [hak]
      · simp [hc]

theorem Registry.get_modify (m : Registry) (k c : String) (f : ChatRecord → ChatRecord) :
    (m.modify k f).get c = if c = k then (m.get c).map f else m.get c := by
  induction m with
  | nil => simp [Registry.modify, Registry.get_nil]
  | cons e m ih =>
    obtain ⟨a, r⟩ := e
    unfold Registry.modify at ih ⊢
    simp only [List.map_cons]
    by_cases hak : a = k
    · subst hak
      simp only [beq_self_eq_true, if_true]
      rw [Registry.get_cons, Registry.get_cons, ih]
      by_cases hc : c = a <;> simp [hc]
    · have : (a == k) = false := by simpa using hak
      simp only [this, Bool.false_eq_true, if_false]
      rw [Registry.get_cons, Registry.get_cons, ih]
      by_cases hc : c = a
      · subst hc; simp [hak]
      · simp [hc]

theorem Registry.get_insertNew (m : Registry) (k c : String) (r : ChatRecord)
    (h : m.get k = none) :
    (Registry.insertNew k r m).get c = if c = k then some r else m.get c := by
  induction m with
  | nil => simp [Registry.insertNew, Registry.get_cons, Registry.get_nil]
  | cons e m ih =>
    obtain ⟨a, x⟩ := e
    rw [Registry.get_cons] at h
    have hka : ¬ k = a := by
      intro hk
      simp [hk] at h
    simp only [hka, if_false] at h
    unfold Registry.insertNew
    by_cases hl : listedAfter k a = true
    · simp only [hl, if_true]
      rw [Registry.get_cons]
    · simp only [hl, Bool.false_eq_true, if_false]
      rw [Registry.get_cons, ih h, Registry.get_cons]
      by_cases hc : c = a
      · subst hc
        have : ¬ c = k := fun e => hka e.symm
        simp [this]
      · simp [hc]

theorem Registry.get_ensure (m : Registry) (k c : String) :
    (m.ensure k).get c = if c = k then some ((m.get c).getD {}) else m.get c := by
  unfold Registry.ensure
  by_cases hk : (m.get k).isSome = true
  · simp only [hk, if_true]
    by_cases hc : c = k
    · subst hc
      obtain ⟨x, hx⟩ := Option.isSome_iff_exists.mp hk
      simp [hx]
    · simp [hc]
  · simp only [hk, Bool.false_eq_true, if_false]
    have hnone : m.get k = none := by simpa using hk
    rw [Registry.get_insertNew m k c _ hnone]
    by_cases hc : c = k
    · subst hc
      simp [hnone]
    · simp [hc]

theorem Registry.ensure_of_get (m : Registry) (k : String) (r : ChatRecord)
    (h : m.get k = some r) : m.ensure k = m := by
  simp [Registry.ensure, h]

theorem Registry.get_isSome_of_mem (m : Registry) (k : String)
    (h : k ∈ m.map Prod.fst) : (m.get k).isSome = true := by
  induction m with
  | nil => simp at h
  | cons e m ih =>
    obtain ⟨a, r⟩ := e
    rw [Registry.get_cons]
    by_cases hk : k = a
    · simp [hk]
    · simp only [hk, if_false]
      apply ih
      simpa [hk] using h

theorem Registry.mem_of_get (m : Registry) (k : String) (r : ChatRecord)
    (h : m.get k = some r) : k ∈ m.map Prod.fst := by
  induction m with
  | nil => simp [Registry.get_nil] at h
  | cons e m ih =>
    obtain ⟨a, x⟩ := e
    rw [Registry.get_cons] at h
    by_cases hk : k = a
    · simp [hk]
    · simp only [hk, if_false] at h
      simp [ih h]

/-! ## Steps that concern one chat -/

theorem Touches.refl (k : String) (s : St) : Touches k s s :=
  ⟨fun _ _ => rfl, id, [], by simp, by simp⟩

theorem Touches.trans {k : String} {s t u : St} (h1 : Touches k s t) (h2 : Touches k t u) :
    Touches k s u := by
  obtain ⟨a1, b1, e1, l1, m1⟩ := h1
  obtain ⟨a2, b2, e2, l2, m2⟩ := h2
  refine ⟨fun c hc => (a2 c hc).trans (a1 c hc), fun h => b2 (b1 h), e1 ++ e2, ?_, ?_⟩
  · rw [l2, l1, List.append_assoc]
  · intro q hq
    rcases List.mem_append.mp hq with h | h
    · exact m1 q h
    · exact m2 q h

theorem touches_call (remote : Remote) (s : St) (q : Request) (k : String)
    (hq : Request.chatId q = some k) : Touches k s (call remote s q).2 :=
  ⟨fun _ _ => rfl, id, [q], rfl, by simpa using hq⟩

theorem touches_removeChat (s : St) (k : String) : Touches k s (removeChat s k).2 := by
  unfold removeChat
  split
  · refine ⟨fun c hc => ?_, fun _ => rfl, [], by simp, by simp⟩
    simp [Registry.get_delete, hc]
  · exact Touches.refl k s

theorem touches_pinMessage (remote : Remote) (s : St) (k : String) (m : Option Int) :
    Touches k s (pinMessage remote s k m) :=
  touches_call remote s _ k rfl

theorem touches_sendPhoto (remote : Remote) (s : St) (chat : Effective) :
    Touches chat.chat_id s (sendPhoto remote s chat).2 := by
  have hc := touches_call remote s (.sendPhoto chat) chat.chat_id rfl
  unfold sendPhoto
  simp only []
  split
  · exact hc
  · split_ifs
    · exact hc.trans (touches_removeChat _ _)
    · exact hc
    · exact hc
    · exact hc.trans (touches_pinMessage remote _ _ _)

theorem touches_editPhoto (remote : Remote) (s : St) (chat : Effective) (messageId : Int) :
    Touches chat.chat_id s (editPhoto remote s chat messageId).2 := by
  have hc := touches_call remote s (.editMessageMedia chat messageId) chat.chat_id rfl
  unfold editPhoto
  simp only []
  split
  · exact hc
  · split_ifs
    · exact hc.trans (touches_pinMessage remote _ _ _)
    · exact hc
    · exact hc.trans (touches_sendPhoto remote _ _)
    · exact hc.trans (touches_removeChat _ _)
    · exact hc
    · exact hc.trans (touches_pinMessage remote _ _ _)

theorem touches_setMessageId (s : St) (k : String) (m : Option Int) :
    Touches k s (setMessageId s k m) := by
  unfold setMessageId
  dsimp only
  split_ifs
  · exact Touches.refl k s
  · refine ⟨fun c hc => ?_, fun _ => rfl, [], by simp, by simp⟩
    simp [Registry.get_modify, Registry.get_ensure, hc]
  · refine ⟨fun c hc => ?_, id, [], by simp, by simp⟩
    simp [Registry.get_ensure, hc]

theorem touches_updateStoredChatFields (s : St) (k : String) (e : Effective) :
    Touches k s (updateStoredChatFields s k e) := by
  unfold updateStoredChatFields
  refine ⟨fun c hc => ?_, fun h => by simp [h], [], by simp, by simp⟩
  simp only []
  split_ifs <;> simp [Registry.get_modify, Registry.get_ensure, hc]

/-! ## The senders, case by case -/

theorem sendPhoto_chat (remote : Remote) (s : St) (chat : Effective) :
    (sendPhoto remote s chat).1.chat = chat := by
  unfold sendPhoto
  dsimp only
  split
  · rfl
  · split_ifs <;> rfl

theorem editPhoto_chat (remote : Remote) (s : St) (chat : Effective) (messageId : Int) :
    (editPhoto remote s chat messageId).1.chat = chat := by
  unfold editPhoto
  dsimp only
  split
  · rfl
  · split_ifs
    · rfl
    · rfl
    · exact sendPhoto_chat remote _ chat
    · rfl
    · rfl
    · rfl

theorem sendPhoto_notMember (remote : Remote) (s : St) (chat : Effective)
    (h : isNotMember403 (remote s.log.length (.sendPhoto chat)) = true) :
    sendPhoto remote s chat =
      ({ ok := true, chat := chat, reason := some "unregistered" },
       (removeChat { s with log := s.log ++ [.sendPhoto chat] } chat.chat_id).2) := by
  unfold sendPhoto call
  dsimp only
  cases hr : remote s.log.length (.sendPhoto chat) with
  | networkError => simp [hr, isNotMember403] at h
  | json j =>
    rw [hr] at h
    simp only [isNotMember403, Bool.and_eq_true, Bool.not_eq_true', beq_iff_eq] at h
    obtain ⟨⟨h1, h2⟩, h3⟩ := h
    simp [h1, h2, h3]

theorem sendPhoto_ok (remote : Remote) (s : St) (chat : Effective) (j : Json)
    (h : remote s.log.length (.sendPhoto chat) = .json j) (hok : j.ok = true) :
    sendPhoto remote s chat =
      ({ ok := true, chat := chat, message_id := j.result.bind (fun r => r.message_id),
         result := j.result },
       { s with log := s.log ++ [.sendPhoto chat,
           .pinChatMessage chat.chat_id (j.result.bind (fun r => r.message_id))] }) := by
  unfold sendPhoto call pinMessage call
  simp [h, hok]

theorem editPhoto_notMember (remote : Remote) (s : St) (chat : Effective) (messageId : Int)
    (h : isNotMember403 (remote s.log.length (.editMessageMedia chat messageId)) = true) :
    editPhoto remote s chat messageId =
      ({ ok := true, chat := chat, reason := some "unregistered" },
       (removeChat { s with log := s.log ++ [.editMessageMedia chat messageId] }
          chat.chat_id).2) := by
  unfold editPhoto call
  dsimp only
  cases hr : remote s.log.length (.editMessageMedia chat messageId) with
  | networkError => simp [hr, isNotMember403] at h
  | json j =>
    rw [hr] at h
    simp only [isNotMember403, Bool.and_eq_true, Bool.not_eq_true', beq_iff_eq] at h
    obtain ⟨⟨h1, h2⟩, h3⟩ := h
    simp [h1, h2, h3]

theorem editPhoto_generic400 (remote : Remote) (s : St) (chat : Effective) (messageId : Int)
    (h : isGeneric400 (remote s.log.length (.editMessageMedia chat messageId)) = true) :
    editPhoto remote s chat messageId =
      ({ (sendPhoto remote { s with log := s.log ++ [.editMessageMedia chat messageId] }
            chat).1 with replaced := true },
       (sendPhoto remote { s with log := s.log ++ [.editMessageMedia chat messageId] }
            chat).2) := by
  unfold editPhoto call
  dsimp only
  cases hr : remote s.log.length (.editMessageMedia chat messageId) with
  | networkError => simp [hr, isGeneric400] at h
  | json j =>
    rw [hr] at h
    simp only [isGeneric400, Bool.and_eq_true, Bool.not_eq_true', beq_iff_eq] at h
    obtain ⟨⟨⟨h1, h2⟩, h3⟩, h4⟩ := h
    simp [h1, h2, h3, h4]

theorem editPhoto_notModified (remote : Remote) (s : St) (chat : Effective) (messageId : Int)
    (h : isNotModified400 (remote s.log.length (.editMessageMedia chat messageId)) = true) :
    editPhoto remote s chat messageId =
      ({ ok := true, chat := chat, not_modified := true },
       { s with log := s.log ++ [.editMessageMedia chat messageId,
           .pinChatMessage chat.chat_id (some messageId)] }) := by
  unfold editPhoto call pinMessage call
  dsimp only
  cases hr : remote s.log.length (.editMessageMedia chat messageId) with
  | networkError => simp [hr, isNotModified400] at h
  | json j =>
    rw [hr] at h
    simp only [isNotModified400, Bool.and_eq_true, Bool.not_eq_true', beq_iff_eq] at h
    obtain ⟨⟨h1, h2⟩, h3⟩ := h
    simp [h1, h2, h3]

theorem editPhoto_ok (remote : Remote) (s : St) (chat : Effective) (messageId : Int)
    (h : isOk (remote s.log.length (.editMessageMedia chat messageId)) = true) :
    ∃ res, editPhoto remote s chat messageId =
      ({ ok := true, chat := chat, result := res },
       { s with log := s.log ++ [.editMessageMedia chat messageId,
           .pinChatMessage chat.chat_id (some messageId)] }) := by
  unfold editPhoto call pinMessage call
  dsimp only
  cases hr : remote s.log.length (.editMessageMedia chat messageId) with
  | networkError => simp [hr, isOk] at h
  | json j =>
    rw [hr] at h
    simp only [isOk] at h
    exact ⟨j.result, by simp [h]⟩

/-! ## One iteration of the main loop -/

theorem effectiveOf_chat_id (D k : String) (rec : ChatRecord) :
    (effectiveOf D k rec).chat_id = k := rfl

theorem touches_reconcileChat (remote : Remote) (D : String) (acc : St × List Result)
    (k : String) : Touches k acc.1 (reconcileChat remote D acc k).1 := by
  have hs := touches_sendPhoto remote acc.1 (effectiveOf D k ((acc.1.messageMap.get k).getD {}))
  have he := touches_editPhoto remote acc.1 (effectiveOf D k ((acc.1.messageMap.get k).getD {}))
    (((acc.1.messageMap.get k).bind (fun r => r.message_id)).getD 0)
  rw [effectiveOf_chat_id] at hs he
  unfold reconcileChat
  dsimp only
  split_ifs
  · exact Touches.refl _ _
  · exact Touches.refl _ _
  · exact hs
  · exact (hs.trans (touches_setMessageId _ _ _)).trans (touches_updateStoredChatFields _ _ _)
  · exact hs.trans (touches_updateStoredChatFields _ _ _)
  · exact he
  · exact (he.trans (touches_setMessageId _ _ _)).trans (touches_updateStoredChatFields _ _ _)
  · exact he.trans (touches_updateStoredChatFields _ _ _)

theorem results_reconcileChat (remote : Remote) (D : String) (acc : St × List Result)
    (k : String) :
    ∃ r, (reconcileChat remote D acc k).2 = acc.2 ++ [r] ∧ r.chat.chat_id = k := by
  have hs := sendPhoto_chat remote acc.1 (effectiveOf D k ((acc.1.messageMap.get k).getD {}))
  have he := editPhoto_chat remote acc.1 (effectiveOf D k ((acc.1.messageMap.get k).getD {}))
    (((acc.1.messageMap.get k).bind (fun r => r.message_id)).getD 0)
  unfold reconcileChat
  dsimp only
  split_ifs
  · exact ⟨_, rfl, rfl⟩
  · exact ⟨_, rfl, rfl⟩
  all_goals first
    | exact ⟨_, rfl, by rw [hs]; rfl⟩
    | exact ⟨_, rfl, by rw [he]; rfl⟩

/-! ## The pass as a fold -/

theorem touches_get_ne {k c : String} {s t : St} (h : Touches k s t) (hc : c ≠ k) :
    t.messageMap.get c = s.messageMap.get c := h.1 c hc

theorem touches_createCalls_ne {k c : String} {s t : St} (h : Touches k s t) (hc : c ≠ k) :
    createCalls c t.log = createCalls c s.log := by
  obtain ⟨_, _, extra, hl, hm⟩ := h
  rw [hl]
  unfold createCalls
  rw [List.countP_append]
  have : List.countP (isCreateFor c) extra = 0 := by
    rw [List.countP_eq_zero]
    intro q hq
    have := hm q hq
    cases q <;> simp_all [isCreateFor, Request.chatId]
    intro h; exact hc h.symm
  omega

theorem touches_editCalls_ne {k c : String} {s t : St} (h : Touches k s t) (hc : c ≠ k) :
    editCalls c t.log = editCalls c s.log := by
  obtain ⟨_, _, extra, hl, hm⟩ := h
  rw [hl]
  unfold editCalls
  rw [List.countP_append]
  have : List.countP (isEditFor c) extra = 0 := by
    rw [List.countP_eq_zero]
    intro q hq
    have := hm q hq
    cases q <;> simp_all [isEditFor, Request.chatId]
    intro h; exact hc h.symm
  omega

/-- What a pass over chats other than `c` leaves alone. -/
theorem fold_frame (remote : Remote) (D c : String) (L : List String) (hL : c ∉ L)
    (acc : St × List Result) :
    let out := L.foldl (reconcileChat remote D) acc
    out.1.messageMap.get c = acc.1.messageMap.get c ∧
    (acc.1.mapDirty = true → out.1.mapDirty = true) ∧
    createCalls c out.1.log = createCalls c acc.1.log ∧
    editCalls c out.1.log = editCalls c acc.1.log ∧
    (∀ r ∈ acc.2, r ∈ out.2) ∧
    (∀ r ∈ out.2, r.chat.chat_id = c → r ∈ acc.2) := by
  induction L generalizing acc with
  | nil => exact ⟨rfl, id, rfl, rfl, fun _ h => h, fun _ h _ => h⟩
  | cons k L ih =>
    have hk : c ≠ k := fun h => hL (by simp [h])
    have hL' : c ∉ L := fun h => hL (by simp [h])
    have ht := touches_reconcileChat remote D acc k
    obtain ⟨r0, hr0, hr0c⟩ := results_reconcileChat remote D acc k
    have := ih hL' (reconcileChat remote D acc k)
    simp only [List.foldl_cons] at this ⊢
    obtain ⟨a, b, c1, d, e, f⟩ := this
    refine ⟨?_, ?_, ?_, ?_, ?_, ?_⟩
    · rw [a, touches_get_ne ht hk]
    · exact fun h => b (ht.2.1 h)
    · rw [c1, touches_createCalls_ne ht hk]
    · rw [d, touches_editCalls_ne ht hk]
    · intro r hr
      apply e
      rw [hr0]
      exact List.mem_append_left _ hr
    · intro r hr hrc
      have := f r hr hrc
      rw [hr0] at this
      rcases List.mem_append.mp this with h | h
      · exact h
      · simp only [List.mem_singleton] at h
        subst h
        exact absurd (hrc.symm.trans hr0c) hk

/-! ## Unregistration -/

theorem removeChat_of_get (s : St) (c : String) (rec : ChatRecord)
    (h : s.messageMap.get c = some rec) :
    removeChat s c = (true, { s with messageMap := s.messageMap.delete c, mapDirty := true }) := by
  simp [removeChat, h]

theorem reconcileChat_unregister (remote : Remote) (D : String) (acc : St × List Result)
    (c : String) (rec : ChatRecord)
    (hrec : acc.1.messageMap.get c = some rec) (hc : c ≠ "")
    (himg : truthyStr rec.image_url = true)
    (hresp :
      (truthyNum rec.message_id = false ∧
        ∀ n q, isCreateFor c q = true → isNotMember403 (remote n q) = true) ∨
      (truthyNum rec.message_id = true ∧
        ∀ n q, isEditFor c q = true → isNotMember403 (remote n q) = true) ∨
      (truthyNum rec.message_id = true ∧
        (∀ n q, isEditFor c q = true → isGeneric400 (remote n q) = true) ∧
        ∀ n q, isCreateFor c q = true → isNotMember403 (remote n q) = true)) :
    (reconcileChat remote D acc c).1.messageMap.get c = none ∧
    (reconcileChat remote D acc c).1.mapDirty = true ∧
    ∃ r, (reconcileChat remote D acc c).2 = acc.2 ++ [r] ∧ r.chat.chat_id = c ∧
      r.ok = true ∧ r.reason = some "unregistered" := by
  have hne : (c == "") = false := by simpa using hc
  have himg' : truthyStr (effectiveOf D c rec).image_url = true := himg
  rcases hresp with ⟨hk, h⟩ | ⟨hk, h⟩ | ⟨hk, h1, h2⟩
  · have hs := sendPhoto_notMember remote acc.1 (effectiveOf D c rec)
      (h _ _ (by simp [isCreateFor, effectiveOf]))
    unfold reconcileChat
    simp only [hrec, Option.getD_some, effectiveOf_chat_id, hne, himg', Option.some_bind, hk, hs, Bool.not_false, Bool.not_true, Bool.false_eq_true, if_true, if_false]
    simp [removeChat, hrec, Registry.get_delete, effectiveOf]
  · have hs := editPhoto_notMember remote acc.1 (effectiveOf D c rec) (rec.message_id.getD 0)
      (h _ _ (by simp [isEditFor, effectiveOf]))
    unfold reconcileChat
    simp only [hrec, Option.getD_some, effectiveOf_chat_id, hne, himg', Option.some_bind, hk, hs, Bool.not_false, Bool.not_true, Bool.false_eq_true, if_true, if_false]
    simp [removeChat, hrec, Registry.get_delete, effectiveOf]
  · have he := editPhoto_generic400 remote acc.1 (effectiveOf D c rec) (rec.message_id.getD 0)
      (h1 _ _ (by simp [isEditFor, effectiveOf]))
    have hs := sendPhoto_notMember remote
      { acc.1 with log := acc.1.log ++
          [.editMessageMedia (effectiveOf D c rec) (rec.message_id.getD 0)] }
      (effectiveOf D c rec) (h2 _ _ (by simp [isCreateFor, effectiveOf]))
    rw [hs] at he
    unfold reconcileChat
    simp only [hrec, Option.getD_some, effectiveOf_chat_id, hne, himg', Option.some_bind, hk, he, Bool.not_false, Bool.not_true, Bool.false_eq_true, if_true, if_false]
    simp [removeChat, hrec, Registry.get_delete, effectiveOf]

theorem reconcileChat_absent (remote : Remote) (D : String) (acc : St × List Result)
    (k : String) (h : acc.1.messageMap.get k = none) :
    (reconcileChat remote D acc k).1 = acc.1 := by
  unfold reconcileChat
  simp [h, effectiveOf, truthyStr]
  split_ifs <;> rfl

theorem fold_unregistered (remote : Remote) (D c : String) (L : List String)
    (acc : St × List Result)
    (h : acc.1.messageMap.get c = none ∧ acc.1.mapDirty = true ∧
      ∃ r ∈ acc.2, r.chat.chat_id = c ∧ r.ok = true ∧ r.reason = some "unregistered") :
    (L.foldl (reconcileChat remote D) acc).1.messageMap.get c = none ∧
    (L.foldl (reconcileChat remote D) acc).1.mapDirty = true ∧
    ∃ r ∈ (L.foldl (reconcileChat remote D) acc).2,
      r.chat.chat_id = c ∧ r.ok = true ∧ r.reason = some "unregistered" := by
  induction L generalizing acc with
  | nil => exact h
  | cons k L ih =>
    simp only [List.foldl_cons]
    apply ih
    obtain ⟨h1, h2, r, hr, hgood⟩ := h
    have ht := touches_reconcileChat remote D acc k
    obtain ⟨r0, hr0, _⟩ := results_reconcileChat remote D acc k
    refine ⟨?_, ht.2.1 h2, r, ?_, hgood⟩
    · by_cases hk : c = k
      · subst hk
        rw [reconcileChat_absent remote D acc c h1]
        exact h1
      · rw [touches_get_ne ht hk]
        exact h1
    · rw [hr0]
      exact List.mem_append_left _ hr

/-- C1. For every registry and every chat `c` of it with a (truthy) `image_url`: when the
create attempt (no stored `message_id`), the update attempt (a stored `message_id`), or the
create issued as fallback from an update answered by a generic 400, is answered with `ok`
false, code 403 and a description holding `not a member` in any case, the pass pushes a result
for `c` with `ok` true and reason `unregistered`, which is not among `failures`; at the end of
the pass the registry has no record for `c` and the dirty flag is raised. -/
theorem not_member_unregisters (remote : Remote) (D : String) (s : St) (c : String)
    (rec : ChatRecord)
    (hrec : s.messageMap.get c = some rec) (hc : c ≠ "")
    (himg : truthyStr rec.image_url = true)
    (hresp :
      (truthyNum rec.message_id = false ∧
        ∀ n q, isCreateFor c q = true → isNotMember403 (remote n q) = true) ∨
      (truthyNum rec.message_id = true ∧
        ∀ n q, isEditFor c q = true → isNotMember403 (remote n q) = true) ∨
      (truthyNum rec.message_id = true ∧
        (∀ n q, isEditFor c q = true → isGeneric400 (remote n q) = true) ∧
        ∀ n q, isCreateFor c q = true → isNotMember403 (remote n q) = true)) :
    (∃ r ∈ (reconcile remote D s).2, r.chat.chat_id = c ∧ r.ok = true ∧
      r.reason = some "unregistered" ∧ r ∉ failures (reconcile remote D s).2) ∧
    (reconcile remote D s).1.messageMap.get c = none ∧
    (reconcile remote D s).1.mapDirty = true := by
  have key : ∀ (L : List String) (acc : St × List Result), c ∈ L →
      acc.1.messageMap.get c = some rec →
      (L.foldl (reconcileChat remote D) acc).1.messageMap.get c = none ∧
      (L.foldl (reconcileChat remote D) acc).1.mapDirty = true ∧
      ∃ r ∈ (L.foldl (reconcileChat remote D) acc).2,
        r.chat.chat_id = c ∧ r.ok = true ∧ r.reason = some "unregistered" := by
    intro L
    induction L with
    | nil => intro acc hmem; simp at hmem
    | cons k L ih =>
      intro acc hmem hget
      simp only [List.foldl_cons]
      by_cases hk : c = k
      · subst hk
        obtain ⟨h1, h2, r, hr, hrc, hok, hreason⟩ :=
          reconcileChat_unregister remote D acc c rec hget hc himg hresp
        exact fold_unregistered remote D c L _
          ⟨h1, h2, r, by rw [hr]; simp, hrc, hok, hreason⟩
      · have hmem' : c ∈ L := by
          rcases List.mem_cons.mp hmem with h | h
          · exact absurd h hk
          · exact h
        apply ih _ hmem'
        rw [touches_get_ne (touches_reconcileChat remote D acc k) hk]
        exact hget
  have hmem : c ∈ s.messageMap.map Prod.fst := Registry.mem_of_get _ _ _ hrec
  obtain ⟨h1, h2, r, hr, hrc, hok, hreason⟩ := key _ (s, []) hmem hrec
  refine ⟨⟨r, hr, hrc, hok, hreason, ?_⟩, h1, h2⟩
  intro hf
  unfold failures at hf
  rw [List.mem_filter] at hf
  simp [hok] at hf

/-! ## Writing back to an existing record -/

theorem setMessageId_of_get (s : St) (c : String) (rec : ChatRecord) (m : Int)
    (h : s.messageMap.get c = some rec) (hm : m ≠ 0) :
    (setMessageId s c (some m)).messageMap.get c = some { rec with message_id := some m } ∧
    (setMessageId s c (some m)).mapDirty = (s.mapDirty || rec.message_id != some m) ∧
    (setMessageId s c (some m)).log = s.log := by
  unfold setMessageId
  have ht : truthyNum (some m) = true := by simpa [truthyNum] using hm
  simp only [ht, Bool.not_true, Bool.false_eq_true, if_false,
    Registry.ensure_of_get _ _ _ h, h, Option.some_bind]
  by_cases hd : rec.message_id = some m
  · simp only [hd, bne_self_eq_false, Bool.false_eq_true, if_false, Bool.or_false, and_true]
    rw [h]
    congr 1
    cases rec
    simp_all
  · have hd' : (rec.message_id != some m) = true := by simpa using hd
    simp [hd', Registry.get_modify, h]

theorem updateStoredChatFields_of_get (s : St) (c : String) (rec : ChatRecord) (e : Effective)
    (h : s.messageMap.get c = some rec) (himg : e.image_url = rec.image_url) :
    (updateStoredChatFields s c e).messageMap.get c =
      some { rec with caption :=
        (if (e.caption != "" && rec.caption != some e.caption) = true
          then some e.caption else rec.caption) } ∧
    (updateStoredChatFields s c e).mapDirty =
      (s.mapDirty || (e.caption != "" && rec.caption != some e.caption)) ∧
    (updateStoredChatFields s c e).log = s.log := by
  unfold updateStoredChatFields
  refine ⟨?_, ?_, ?_⟩
  · simp only [Registry.ensure_of_get _ _ _ h, h, Option.getD_some, himg, bne_self_eq_false,
      Bool.and_false, Bool.false_eq_true, if_false]
    split_ifs with ht
    · simp [Registry.get_modify, h]
    · exact h
  · simp [Registry.ensure_of_get _ _ _ h, h, himg]
  · rfl

/-! ## Calls issued -/

theorem removeChat_log (s : St) (c : String) : (removeChat s c).2.log = s.log := by
  unfold removeChat
  split_ifs <;> rfl

theorem setMessageId_log (s : St) (c : String) (m : Option Int) :
    (setMessageId s c m).log = s.log := by
  unfold setMessageId
  dsimp only
  split_ifs <;> rfl

theorem updateStoredChatFields_log (s : St) (c : String) (e : Effective) :
    (updateStoredChatFields s c e).log = s.log := rfl

theorem sendPhoto_calls (remote : Remote) (s : St) (chat : Effective) (c : String) :
    createCalls c (sendPhoto remote s chat).2.log =
      createCalls c s.log + (if chat.chat_id = c then 1 else 0) ∧
    editCalls c (sendPhoto remote s chat).2.log = editCalls c s.log := by
  unfold sendPhoto call pinMessage call
  dsimp only
  split
  · split_ifs <;>
      simp [createCalls, editCalls, List.countP_append, List.countP_cons, isCreateFor,
        isEditFor, *]
  · split_ifs <;>
      simp [createCalls, editCalls, List.countP_append, List.countP_cons, isCreateFor,
        isEditFor, removeChat_log, *]

theorem editPhoto_editCalls (remote : Remote) (s : St) (chat : Effective) (k : Int)
    (c : String) :
    editCalls c (editPhoto remote s chat k).2.log =
      editCalls c s.log + (if chat.chat_id = c then 1 else 0) := by
  have hsp := fun s1 => (sendPhoto_calls remote s1 chat c).2
  simp only [editCalls] at hsp
  unfold editPhoto call pinMessage call
  dsimp only
  split
  · split_ifs <;> simp [editCalls, List.countP_append, List.countP_cons, isEditFor, *]
  · split_ifs <;>
      simp [editCalls, List.countP_append, List.countP_cons, isCreateFor,
        isEditFor, removeChat_log, hsp, *]

theorem reconcileChat_create_calls (remote : Remote) (D : String) (acc : St × List Result)
    (c : String) (rec : ChatRecord)
    (hrec : acc.1.messageMap.get c = some rec) (hc : c ≠ "")
    (himg : truthyStr rec.image_url = true) (hk : truthyNum rec.message_id = false) :
    createCalls c (reconcileChat remote D acc c).1.log = createCalls c acc.1.log + 1 ∧
    editCalls c (reconcileChat remote D acc c).1.log = editCalls c acc.1.log := by
  have hne : (c == "") = false := by simpa using hc
  have himg' : truthyStr (effectiveOf D c rec).image_url = true := himg
  have hs := sendPhoto_calls remote acc.1 (effectiveOf D c rec) c
  rw [effectiveOf_chat_id] at hs
  simp only [if_true] at hs
  unfold reconcileChat
  simp only [hrec, Option.getD_some, effectiveOf_chat_id, hne, himg', Option.some_bind, hk,
    Bool.not_false, Bool.not_true, Bool.false_eq_true, if_true, if_false]
  split_ifs <;> simp only [updateStoredChatFields_log, setMessageId_log] <;> exact hs

/-! ## Create and fallback, one iteration -/

theorem isOkWithId_json {m : Int} {res : Response} (h : isOkWithId m res = true) :
    ∃ j, res = .json j ∧ j.ok = true ∧ j.result.bind (fun r => r.message_id) = some m := by
  cases res with
  | networkError => simp [isOkWithId] at h
  | json j =>
    simp only [isOkWithId, Bool.and_eq_true, beq_iff_eq] at h
    exact ⟨j, rfl, h.1, h.2⟩

theorem reconcileChat_create_ok (remote : Remote) (D : String) (acc : St × List Result)
    (c : String) (rec : ChatRecord) (m : Int)
    (hrec : acc.1.messageMap.get c = some rec) (hc : c ≠ "")
    (himg : truthyStr rec.image_url = true) (hk : truthyNum rec.message_id = false)
    (hm : m ≠ 0)
    (hresp : isOkWithId m (remote acc.1.log.length (.sendPhoto (effectiveOf D c rec))) = true) :
    (reconcileChat remote D acc c).1.messageMap.get c =
      some { rec with
        message_id := some m
        caption := (if ((effectiveOf D c rec).caption != "" &&
            rec.caption != some (effectiveOf D c rec).caption) = true
          then some (effectiveOf D c rec).caption else rec.caption) } ∧
    (reconcileChat remote D acc c).1.mapDirty = true ∧
    ∃ r, (reconcileChat remote D acc c).2 = acc.2 ++ [r] ∧ r.chat.chat_id = c ∧
      r.ok = true ∧ r.message_id = some m ∧ r.replaced = false ∧ r.reason = none := by
  have hne : (c == "") = false := by simpa using hc
  have himg' : truthyStr (effectiveOf D c rec).image_url = true := himg
  obtain ⟨j, hj, hok, hid⟩ := isOkWithId_json hresp
  have hs := sendPhoto_ok remote acc.1 (effectiveOf D c rec) j hj hok
  rw [hid] at hs
  have ht : truthyNum (some m) = true := by simpa [truthyNum] using hm
  have hget1 : (St.mk acc.1.messageMap acc.1.mapDirty
      (acc.1.log ++ [Request.sendPhoto (effectiveOf D c rec),
        Request.pinChatMessage c (some m)])).messageMap.get c
      = some rec := hrec
  obtain ⟨a1, a2, _⟩ := setMessageId_of_get _ c rec m hget1 hm
  obtain ⟨b1, b2, _⟩ := updateStoredChatFields_of_get _ c _ (effectiveOf D c rec) a1 rfl
  have hmid : (rec.message_id != some m) = true := by
    cases hr : rec.message_id with
    | none => simp
    | some x =>
      rw [hr] at hk
      simp only [truthyNum, bne_eq_false_iff_eq] at hk
      subst hk
      simpa using hm.symm
  unfold reconcileChat
  simp only [hrec, Option.getD_some, effectiveOf_chat_id, hne, himg', Option.some_bind, hk,
    Bool.not_false, Bool.not_true, Bool.false_eq_true, if_true, if_false, hs, ht,
    Bool.and_true, Bool.true_and, beq_iff_eq, reduceCtorEq]
  refine ⟨?_, ?_, _, rfl, rfl, rfl, rfl, rfl, rfl⟩
  · rw [b1]
  · rw [b2, a2, hmid]; simp

theorem reconcileChat_fallback_calls (remote : Remote) (D : String) (acc : St × List Result)
    (c : String) (rec : ChatRecord)
    (hrec : acc.1.messageMap.get c = some rec) (hc : c ≠ "")
    (himg : truthyStr rec.image_url = true) (hk : truthyNum rec.message_id = true)
    (hedit : ∀ n q, isEditFor c q = true → isGeneric400 (remote n q) = true) :
    createCalls c (reconcileChat remote D acc c).1.log = createCalls c acc.1.log + 1 ∧
    editCalls c (reconcileChat remote D acc c).1.log = editCalls c acc.1.log + 1 := by
  have hne : (c == "") = false := by simpa using hc
  have himg' : truthyStr (effectiveOf D c rec).image_url = true := himg
  have he := editPhoto_generic400 remote acc.1 (effectiveOf D c rec) (rec.message_id.getD 0)
    (hedit _ _ (by simp [isEditFor, effectiveOf]))
  have hs := sendPhoto_calls remote
    { acc.1 with log := acc.1.log ++
        [.editMessageMedia (effectiveOf D c rec) (rec.message_id.getD 0)] }
    (effectiveOf D c rec) c
  rw [effectiveOf_chat_id] at hs
  simp only [if_true] at hs
  have h1 : createCalls c (acc.1.log ++
      [.editMessageMedia (effectiveOf D c rec) (rec.message_id.getD 0)]) =
      createCalls c acc.1.log := by
    simp [createCalls, List.countP_append, List.countP_cons, isCreateFor]
  have h2 : editCalls c (acc.1.log ++
      [.editMessageMedia (effectiveOf D c rec) (rec.message_id.getD 0)]) =
      editCalls c acc.1.log + 1 := by
    simp [editCalls, List.countP_append, List.countP_cons, isEditFor, effectiveOf]
  rw [h1, h2] at hs
  unfold reconcileChat
  simp only [hrec, Option.getD_some, effectiveOf_chat_id, hne, himg', Option.some_bind, hk,
    Bool.not_false, Bool.not_true, Bool.false_eq_true, if_true, if_false, he]
  split_ifs <;> simp only [updateStoredChatFields_log, setMessageId_log] <;> exact hs

theorem reconcileChat_fallback_ok (remote : Remote) (D : String) (acc : St × List Result)
    (c : String) (rec : ChatRecord) (m : Int)
    (hrec : acc.1.messageMap.get c = some rec) (hc : c ≠ "")
    (himg : truthyStr rec.image_url = true) (hk : truthyNum rec.message_id = true)
    (hm : m ≠ 0)
    (hedit : ∀ n q, isEditFor c q = true → isGeneric400 (remote n q) = true)
    (hresp : ∀ n q, isCreateFor c q = true → isOkWithId m (remote n q) = true) :
    (reconcileChat remote D acc c).1.messageMap.get c =
      some { rec with
        message_id := some m
        caption := (if ((effectiveOf D c rec).caption != "" &&
            rec.caption != some (effectiveOf D c rec).caption) = true
          then some (effectiveOf D c rec).caption else rec.caption) } ∧
    (rec.message_id ≠ some m → (reconcileChat remote D acc c).1.mapDirty = true) ∧
    (acc.1.mapDirty = true → (reconcileChat remote D acc c).1.mapDirty = true) ∧
    ∃ r, (reconcileChat remote D acc c).2 = acc.2 ++ [r] ∧ r.chat.chat_id = c ∧
      r.ok = true ∧ r.message_id = some m ∧ r.replaced = true := by
  have hne : (c == "") = false := by simpa using hc
  have himg' : truthyStr (effectiveOf D c rec).image_url = true := himg
  have he := editPhoto_generic400 remote acc.1 (effectiveOf D c rec) (rec.message_id.getD 0)
    (hedit _ _ (by simp [isEditFor, effectiveOf]))
  obtain ⟨j, hj, hok, hid⟩ := isOkWithId_json
    (hresp (acc.1.log ++ [Request.editMessageMedia (effectiveOf D c rec)
        (rec.message_id.getD 0)]).length
      (.sendPhoto (effectiveOf D c rec)) (by simp [isCreateFor, effectiveOf]))
  have hs := sendPhoto_ok remote
    { acc.1 with log := acc.1.log ++
        [.editMessageMedia (effectiveOf D c rec) (rec.message_id.getD 0)] }
    (effectiveOf D c rec) j hj hok
  rw [hid] at hs
  rw [hs] at he
  have ht : truthyNum (some m) = true := by simpa [truthyNum] using hm
  have hget1 : (St.mk acc.1.messageMap acc.1.mapDirty
      (acc.1.log ++
        [.editMessageMedia (effectiveOf D c rec) (rec.message_id.getD 0)] ++
        [Request.sendPhoto (effectiveOf D c rec),
        Request.pinChatMessage c (some m)])).messageMap.get c
      = some rec := hrec
  obtain ⟨a1, a2, _⟩ := setMessageId_of_get _ c rec m hget1 hm
  obtain ⟨b1, b2, _⟩ := updateStoredChatFields_of_get _ c _ (effectiveOf D c rec) a1 rfl
  unfold reconcileChat
  simp only [hrec, Option.getD_some, effectiveOf_chat_id, hne, himg', Option.some_bind, hk,
    Bool.not_false, Bool.not_true, Bool.false_eq_true, if_true, if_false, he, ht,
    Bool.and_true, Bool.true_and, beq_iff_eq, reduceCtorEq]
  refine ⟨?_, ?_, ?_, _, rfl, rfl, rfl, rfl, rfl⟩
  · rw [b1]
  · intro hd
    have hd' : (rec.message_id != some m) = true := by simpa using hd
    rw [b2, a2, hd']; simp
  · intro hd
    rw [b2, a2]
    simp [hd]

theorem reconcileChat_edit_ok (remote : Remote) (D : String) (acc : St × List Result)
    (c : String) (rec : ChatRecord)
    (hrec : acc.1.messageMap.get c = some rec) (hc : c ≠ "")
    (himg : truthyStr rec.image_url = true) (hk : truthyNum rec.message_id = true)
    (hresp : isOk (remote acc.1.log.length
      (.editMessageMedia (effectiveOf D c rec) (rec.message_id.getD 0))) = true) :
    (reconcileChat remote D acc c).1.messageMap.get c =
      some { rec with
        caption := (if ((effectiveOf D c rec).caption != "" &&
            rec.caption != some (effectiveOf D c rec).caption) = true
          then some (effectiveOf D c rec).caption else rec.caption) } := by
  have hne : (c == "") = false := by simpa using hc
  have himg' : truthyStr (effectiveOf D c rec).image_url = true := himg
  obtain ⟨res, he⟩ := editPhoto_ok remote acc.1 (effectiveOf D c rec) (rec.message_id.getD 0) hresp
  have hget1 : (St.mk acc.1.messageMap acc.1.mapDirty
      (acc.1.log ++ [Request.editMessageMedia (effectiveOf D c rec) (rec.message_id.getD 0),
        Request.pinChatMessage c (some (rec.message_id.getD 0))])).messageMap.get c
      = some rec := hrec
  obtain ⟨b1, _, _⟩ := updateStoredChatFields_of_get _ c _ (effectiveOf D c rec) hget1 rfl
  unfold reconcileChat
  simp only [hrec, Option.getD_some, effectiveOf_chat_id, hne, himg', Option.some_bind, hk,
    Bool.not_false, Bool.not_true, Bool.false_eq_true, if_true, if_false, he,
    Bool.and_true, Bool.true_and, Bool.and_false, Bool.false_and, beq_iff_eq, reduceCtorEq]
  exact b1

theorem reconcileChat_notModified (remote : Remote) (D : String) (acc : St × List Result)
    (c : String) (rec : ChatRecord)
    (hrec : acc.1.messageMap.get c = some rec) (hc : c ≠ "")
    (himg : truthyStr rec.image_url = true) (hk : truthyNum rec.message_id = true)
    (hcap : rec.caption = none → D = "")
    (hresp : isNotModified400 (remote acc.1.log.length
      (.editMessageMedia (effectiveOf D c rec) (rec.message_id.getD 0))) = true) :
    (reconcileChat remote D acc c).1.messageMap = acc.1.messageMap ∧
    (reconcileChat remote D acc c).1.mapDirty = acc.1.mapDirty ∧
    (reconcileChat remote D acc c).2 =
      acc.2 ++ [{ ok := true, chat := effectiveOf D c rec, not_modified := true }] := by
  have hne : (c == "") = false := by simpa using hc
  have himg' : truthyStr (effectiveOf D c rec).image_url = true := himg
  have he := editPhoto_notModified remote acc.1 (effectiveOf D c rec) (rec.message_id.getD 0)
    hresp
  have hcond : ((effectiveOf D c rec).caption != "" &&
      rec.caption != some (effectiveOf D c rec).caption) = false := by
    cases hcp : rec.caption with
    | none => simp [effectiveOf, hcp, hcap hcp]
    | some x => simp [effectiveOf, hcp]
  unfold reconcileChat
  simp only [hrec, Option.getD_some, effectiveOf_chat_id, hne, himg', Option.some_bind, hk,
    Bool.not_false, Bool.not_true, Bool.false_eq_true, if_true, if_false, he,
    Bool.and_true, Bool.true_and, Bool.and_false, Bool.false_and, beq_iff_eq, reduceCtorEq]
  unfold updateStoredChatFields
  simp only [Registry.ensure_of_get _ _ _ hrec, hrec, Option.getD_some, hcond]
  simp [effectiveOf]

theorem fold_split (remote : Remote) (D c : String) (L : List String) (hmem : c ∈ L)
    (hnd : L.Nodup) (acc : St × List Result) :
    ∃ L1 L2 : List String, c ∉ L1 ∧ c ∉ L2 ∧
      L.foldl (reconcileChat remote D) acc =
        L2.foldl (reconcileChat remote D)
          (reconcileChat remote D (L1.foldl (reconcileChat remote D) acc) c) := by
  obtain ⟨L1, L2, rfl⟩ := List.append_of_mem hmem
  refine ⟨L1, L2, ?_, ?_, ?_⟩
  · intro h
    have := List.nodup_append.mp hnd
    exact this.2.2 h (List.mem_cons_self _ _)
  · have := (List.nodup_append.mp hnd).2.1
    exact (List.nodup_cons.mp this).1
  · rw [List.foldl_append, List.foldl_cons]

/-- C3. For every chat `c` whose record has a (truthy) `image_url` and no `message_id`: the
pass issues exactly one create call and no update call for `c`; and when the create call is
answered with `ok` true and the message id `m`, the record of `c` after the pass is the stored
record with `message_id` set to `m` and `caption` set to the effective caption (the stored
override, or the default when none is stored), every other field unchanged, and the dirty flag
is raised. -/
theorem create_stores_message_id (remote : Remote) (D : String) (s : St) (c : String)
    (rec : ChatRecord)
    (hnd : (s.messageMap.map Prod.fst).Nodup)
    (hrec : s.messageMap.get c = some rec) (hc : c ≠ "")
    (himg : truthyStr rec.image_url = true) (hk : rec.message_id = none) :
    (createCalls c (reconcile remote D s).1.log = createCalls c s.log + 1 ∧
      editCalls c (reconcile remote D s).1.log = editCalls c s.log) ∧
    ∀ m : Int, m ≠ 0 →
      (∀ n q, isCreateFor c q = true → isOkWithId m (remote n q) = true) →
      (rec.caption = none → D ≠ "") →
      (reconcile remote D s).1.messageMap.get c =
        some { rec with caption := some (effectiveOf D c rec).caption, message_id := some m } ∧
      (reconcile remote D s).1.mapDirty = true := by
  have hmem : c ∈ s.messageMap.map Prod.fst := Registry.mem_of_get _ _ _ hrec
  obtain ⟨L1, L2, h1, h2, hfold⟩ := fold_split remote D c _ hmem hnd (s, [])
  have hk' : truthyNum rec.message_id = false := by rw [hk]; rfl
  obtain ⟨f1, f2, f3, f4, _, _⟩ := fold_frame remote D c L1 h1 (s, [])
  obtain ⟨g1, g2, g3, g4, _, _⟩ := fold_frame remote D c L2 h2
    (reconcileChat remote D (L1.foldl (reconcileChat remote D) (s, [])) c)
  have hrec1 : (L1.foldl (reconcileChat remote D) (s, [])).1.messageMap.get c = some rec := by
    rw [f1]; exact hrec
  unfold reconcile
  rw [hfold]
  refine ⟨?_, ?_⟩
  · obtain ⟨c1, c2⟩ := reconcileChat_create_calls remote D _ c rec hrec1 hc himg hk'
    rw [g3, g4, c1, c2, f3, f4]
    exact ⟨rfl, rfl⟩
  · intro m hm hresp hD
    obtain ⟨a1, a2, _⟩ := reconcileChat_create_ok remote D _ c rec m hrec1 hc himg hk' hm
        (hresp _ _ (by simp [isCreateFor, effectiveOf]))
    refine ⟨?_, g2 a2⟩
    rw [g1, a1]
    congr 2
    cases hcap : rec.caption with
    | none =>
      have hD' := hD hcap
      simp [effectiveOf, hcap, hD']
    | some x => simp [effectiveOf, hcap]

/-- C2. For every chat `c` with a (truthy) `image_url` and a stored (truthy) `message_id` `k`:
when the update call is answered with `ok` false and code 400 and a description holding neither
`message is not modified` nor `TOPIC_CLOSED`, the pass issues exactly one create call for `c`;
and when that create call is answered with `ok` true and the message id `m`, the result of `c`
is `ok` with the replaced flag and carries `m`, the record of `c` ends the pass with
`message_id` `m`, and the dirty flag is raised (`m` being a new id, other than `k`). -/
theorem fallback_creates_once (remote : Remote) (D : String) (s : St) (c : String)
    (rec : ChatRecord) (k : Int)
    (hnd : (s.messageMap.map Prod.fst).Nodup)
    (hrec : s.messageMap.get c = some rec) (hc : c ≠ "")
    (himg : truthyStr rec.image_url = true) (hk : rec.message_id = some k) (hk0 : k ≠ 0)
    (hedit : ∀ n q, isEditFor c q = true → isGeneric400 (remote n q) = true) :
    createCalls c (reconcile remote D s).1.log = createCalls c s.log + 1 ∧
    ∀ m : Int, m ≠ 0 →
      (∀ n q, isCreateFor c q = true → isOkWithId m (remote n q) = true) →
      (∃ r ∈ (reconcile remote D s).2, r.chat.chat_id = c ∧ r.ok = true ∧
        r.replaced = true ∧ r.message_id = some m) ∧
      (∃ rec', (reconcile remote D s).1.messageMap.get c = some rec' ∧
        rec'.message_id = some m ∧ rec'.image_url = rec.image_url) ∧
      (m ≠ k → (reconcile remote D s).1.mapDirty = true) := by
  have hmem : c ∈ s.messageMap.map Prod.fst := Registry.mem_of_get _ _ _ hrec
  obtain ⟨L1, L2, h1, h2, hfold⟩ := fold_split remote D c _ hmem hnd (s, [])
  have hk' : truthyNum rec.message_id = true := by
    rw [hk]; simpa [truthyNum] using hk0
  obtain ⟨f1, f2, f3, f4, _, _⟩ := fold_frame remote D c L1 h1 (s, [])
  obtain ⟨g1, g2, g3, g4, g5, _⟩ := fold_frame remote D c L2 h2
    (reconcileChat remote D (L1.foldl (reconcileChat remote D) (s, [])) c)
  have hrec1 : (L1.foldl (reconcileChat remote D) (s, [])).1.messageMap.get c = some rec := by
    rw [f1]; exact hrec
  unfold reconcile
  rw [hfold]
  refine ⟨?_, ?_⟩
  · obtain ⟨c1, _⟩ := reconcileChat_fallback_calls remote D _ c rec hrec1 hc himg hk' hedit
    rw [g3, c1, f3]
  · intro m hm hresp
    obtain ⟨a1, a2, _, r, hr, hrc, hok, hmid, hrep⟩ :=
      reconcileChat_fallback_ok remote D _ c rec m hrec1 hc himg hk' hm hedit hresp
    refine ⟨⟨r, g5 r (by rw [hr]; simp), hrc, hok, hrep, hmid⟩, ⟨_, g1.trans a1, rfl, rfl⟩, ?_⟩
    intro hmk
    apply g2
    apply a2
    rw [hk]
    intro h
    exact hmk (Option.some.inj h).symm

/-! ## Two passes -/

theorem reconcileChat_noImage (remote : Remote) (D : String) (acc : St × List Result)
    (k : String) (hk : k ≠ "")
    (himg : truthyStr ((acc.1.messageMap.get k).getD {}).image_url = false) :
    reconcileChat remote D acc k =
      (acc.1, acc.2 ++ [unchangedResult D k (acc.1.messageMap.get k)]) := by
  have hne : (k == "") = false := by simpa using hk
  have himg' :
      truthyStr (effectiveOf D k ((acc.1.messageMap.get k).getD {})).image_url = false := himg
  unfold reconcileChat
  simp only [effectiveOf_chat_id, hne, himg', Bool.not_false, Bool.false_eq_true, if_true,
    if_false, unchangedResult, himg]

theorem settled_written (D c : String) (rec : ChatRecord) (mid : Option Int)
    (hmid : truthyNum mid = true) :
    Settled D { rec with
      message_id := mid
      caption := (if ((effectiveOf D c rec).caption != "" &&
          rec.caption != some (effectiveOf D c rec).caption) = true
        then some (effectiveOf D c rec).caption else rec.caption) } := by
  intro _
  refine ⟨hmid, ?_⟩
  dsimp only
  split_ifs with h
  · intro h'; cases h'
  · intro hcap
    simp only [hcap, effectiveOf, Bool.and_eq_true, bne_iff_ne, ne_eq, not_and,
      Decidable.not_not] at h
    by_contra hD
    have := h hD
    cases this

/-- After its iteration of a pass whose calls all succeed, a chat is settled. -/
theorem reconcileChat_settles (remote : Remote) (D : String) (acc : St × List Result)
    (k : String) (hk : k ≠ "")
    (hc : ∀ n chat, ∃ m, m ≠ 0 ∧ isOkWithId m (remote n (.sendPhoto chat)) = true)
    (he : ∀ n chat id, isOk (remote n (.editMessageMedia chat id)) = true)
    (rec' : ChatRecord)
    (h : (reconcileChat remote D acc k).1.messageMap.get k = some rec') : Settled D rec' := by
  cases hrec : acc.1.messageMap.get k with
  | none =>
    rw [reconcileChat_absent remote D acc k hrec, hrec] at h
    cases h
  | some rec =>
    by_cases himg : truthyStr rec.image_url = true
    · by_cases hkn : truthyNum rec.message_id = true
      · have := reconcileChat_edit_ok remote D acc k rec hrec hk himg hkn (he _ _ _)
        rw [this] at h
        cases h
        have hh := settled_written D k rec rec.message_id hkn
        exact hh
      · have hkn' : truthyNum rec.message_id = false := by simpa using hkn
        obtain ⟨m, hm, hok⟩ := hc acc.1.log.length (effectiveOf D k rec)
        obtain ⟨a1, _, _⟩ := reconcileChat_create_ok remote D acc k rec m hrec hk himg hkn' hm hok
        rw [a1] at h
        cases h
        exact settled_written D k rec (some m) (by simpa [truthyNum] using hm)
    · have himg' : truthyStr ((acc.1.messageMap.get k).getD {}).image_url = false := by
        rw [hrec]; simpa using himg
      rw [reconcileChat_noImage remote D acc k hk himg', hrec] at h
      cases h
      intro hi
      exact absurd hi himg

theorem fold_settles (remote : Remote) (D : String)
    (hc : ∀ n chat, ∃ m, m ≠ 0 ∧ isOkWithId m (remote n (.sendPhoto chat)) = true)
    (he : ∀ n chat id, isOk (remote n (.editMessageMedia chat id)) = true)
    (L : List String) (hL : "" ∉ L) (acc : St × List Result) (c : String) (hmem : c ∈ L)
    (rec' : ChatRecord)
    (h : (L.foldl (reconcileChat remote D) acc).1.messageMap.get c = some rec') :
    Settled D rec' := by
  induction L generalizing acc with
  | nil => simp at hmem
  | cons k L ih =>
    have hk : k ≠ "" := fun hh => hL (by simp [hh])
    have hL' : "" ∉ L := fun hh => hL (by simp [hh])
    simp only [List.foldl_cons] at h
    by_cases hcl : c ∈ L
    · exact ih hL' _ hcl h
    · have hck : c = k := by
        rcases List.mem_cons.mp hmem with h1 | h1
        · exact h1
        · exact absurd h1 hcl
      subst hck
      rw [(fold_frame remote D c L hcl (reconcileChat remote D acc c)).1] at h
      exact reconcileChat_settles remote D acc c hk hc he rec' h

theorem fold_unchanged (remote : Remote) (D : String)
    (h2 : ∀ n chat id, isNotModified400 (remote n (.editMessageMedia chat id)) = true)
    (L : List String) (hL : "" ∉ L) (acc : St × List Result)
    (hs : ∀ k ∈ L, ∀ rec, acc.1.messageMap.get k = some rec → Settled D rec) :
    (L.foldl (reconcileChat remote D) acc).1.messageMap = acc.1.messageMap ∧
    (L.foldl (reconcileChat remote D) acc).1.mapDirty = acc.1.mapDirty ∧
    (L.foldl (reconcileChat remote D) acc).2 =
      acc.2 ++ L.map (fun k => unchangedResult D k (acc.1.messageMap.get k)) := by
  induction L generalizing acc with
  | nil => simp
  | cons k L ih =>
    have hk : k ≠ "" := fun hh => hL (by simp [hh])
    have hL' : "" ∉ L := fun hh => hL (by simp [hh])
    have step : (reconcileChat remote D acc k).1.messageMap = acc.1.messageMap ∧
        (reconcileChat remote D acc k).1.mapDirty = acc.1.mapDirty ∧
        (reconcileChat remote D acc k).2 =
          acc.2 ++ [unchangedResult D k (acc.1.messageMap.get k)] := by
      by_cases himg : truthyStr ((acc.1.messageMap.get k).getD {}).image_url = true
      · cases hrec : acc.1.messageMap.get k with
        | none => rw [hrec] at himg; simp [truthyStr] at himg
        | some rec =>
          rw [hrec] at himg
          simp only [Option.getD_some] at himg
          obtain ⟨s1, s2⟩ := hs k (by simp) rec hrec himg
          have := reconcileChat_notModified remote D acc k rec hrec hk himg s1 s2 (h2 _ _ _)
          simpa [unchangedResult, himg] using this
      · have himg' : truthyStr ((acc.1.messageMap.get k).getD {}).image_url = false := by
          simpa using himg
        rw [reconcileChat_noImage remote D acc k hk himg']
        exact ⟨rfl, rfl, rfl⟩
    obtain ⟨e1, e2, e3⟩ := step
    have := ih hL' (reconcileChat remote D acc k) (by
      intro k' hk' rec hget
      rw [e1] at hget
      exact hs k' (by simp [hk']) rec hget)
    simp only [List.foldl_cons, List.map_cons]
    rw [this.1, this.2.1, this.2.2, e1, e2, e3]
    simp

/-- C4. For every registry (no chat id empty): after a first pass in which every create call
is answered with `ok` true and a message id and every update call with `ok` true, a second pass
over the resulting registry in which every update call is answered `message is not modified`
leaves the registry equal to the registry after the first pass, leaves the dirty flag as it
found it, and pushes for every chat, in order, the not-modified outcome when the chat has an
image and the no-image skip otherwise; every result is `ok`. -/
theorem second_pass_unchanged (remote1 remote2 : Remote) (D : String) (s : St)
    (hkeys : "" ∉ s.messageMap.map Prod.fst)
    (h1c : ∀ n chat, ∃ m, m ≠ 0 ∧ isOkWithId m (remote1 n (.sendPhoto chat)) = true)
    (h1e : ∀ n chat id, isOk (remote1 n (.editMessageMedia chat id)) = true)
    (h2 : ∀ n chat id, isNotModified400 (remote2 n (.editMessageMedia chat id)) = true)
    (d : Bool) (log : List Request) :
    (reconcile remote2 D
      { messageMap := (reconcile remote1 D s).1.messageMap, mapDirty := d, log := log }).1.messageMap
      = (reconcile remote1 D s).1.messageMap ∧
    (reconcile remote2 D
      { messageMap := (reconcile remote1 D s).1.messageMap, mapDirty := d, log := log }).1.mapDirty
      = d ∧
    (reconcile remote2 D
      { messageMap := (reconcile remote1 D s).1.messageMap, mapDirty := d, log := log }).2
      = ((reconcile remote1 D s).1.messageMap.map Prod.fst).map
          (fun k => unchangedResult D k ((reconcile remote1 D s).1.messageMap.get k)) ∧
    (∀ r ∈ (reconcile remote2 D
      { messageMap := (reconcile remote1 D s).1.messageMap, mapDirty := d, log := log }).2,
      r.ok = true ∧ (truthyStr r.chat.image_url = true → r.not_modified = true)) := by
  have hsub : ∀ c, c ∈ (reconcile remote1 D s).1.messageMap.map Prod.fst →
      c ∈ s.messageMap.map Prod.fst := by
    intro c hc
    by_contra hn
    have h1 := Registry.get_isSome_of_mem _ _ hc
    unfold reconcile at h1
    rw [(fold_frame remote1 D c _ hn (s, [])).1] at h1
    obtain ⟨x, hx⟩ := Option.isSome_iff_exists.mp h1
    exact hn (Registry.mem_of_get _ _ _ hx)
  have hkeys1 : "" ∉ (reconcile remote1 D s).1.messageMap.map Prod.fst :=
    fun h => hkeys (hsub _ h)
  have hset : ∀ k ∈ (reconcile remote1 D s).1.messageMap.map Prod.fst, ∀ rec,
      (reconcile remote1 D s).1.messageMap.get k = some rec → Settled D rec := by
    intro k hk rec hget
    exact fold_settles remote1 D h1c h1e _ hkeys (s, []) k (hsub k hk) rec hget
  obtain ⟨e1, e2, e3⟩ := fold_unchanged remote2 D h2 _ hkeys1
    (({ messageMap := (reconcile remote1 D s).1.messageMap, mapDirty := d, log := log } : St), [])
    hset
  have e3' : (reconcile remote2 D
      { messageMap := (reconcile remote1 D s).1.messageMap, mapDirty := d, log := log }).2
      = ((reconcile remote1 D s).1.messageMap.map Prod.fst).map
          (fun k => unchangedResult D k ((reconcile remote1 D s).1.messageMap.get k)) := by
    simpa using e3
  refine ⟨e1, e2, e3', ?_⟩
  intro r hr
  rw [e3'] at hr
  obtain ⟨k, _, rfl⟩ := List.mem_map.mp hr
  unfold unchangedResult
  split_ifs with h
  · exact ⟨rfl, fun _ => rfl⟩
  · refine ⟨rfl, fun hi => ?_⟩
    exact absurd hi h

theorem Registry.delete_of_get_none (m : Registry) (c : String) (h : m.get c = none) :
    m.delete c = m := by
  unfold Registry.delete
  rw [List.filter_eq_self]
  intro e he
  by_contra hne
  have hec : e.1 = c := by simpa using hne
  have := Registry.get_isSome_of_mem m c (List.mem_map.mpr ⟨e, he, hec⟩)
  rw [h] at this
  cases this

theorem removeChat_map (s : St) (c : String) :
    (removeChat s c).2.messageMap = s.messageMap.delete c := by
  unfold removeChat
  split_ifs with h
  · rfl
  · have : s.messageMap.get c = none := by simpa using h
    exact (Registry.delete_of_get_none _ _ this).symm

/-- C5. The result of a create or update attempt is the outcome the table of the
specification gives for the attempt kind and the members `ok`, `error_code`, `description` of
the response: success, unregister, skip-benign, fallback-to-create (update only: the result is
that of the create attempt with the replaced flag) or hard-failure (`ok` false). A successful
create carries the returned message id, and a create answered with a 400 that is not a closed
thread is a hard-failure. -/
theorem outcome_table (remote : Remote) (s : St) (chat : Effective) (messageId : Int) :
    Realises (tableOutcome .create (remote s.log.length (.sendPhoto chat))) s chat none
      (sendPhoto remote s chat) ∧
    Realises (tableOutcome .update (remote s.log.length (.editMessageMedia chat messageId)))
      s chat (some (sendPhoto remote (call remote s (.editMessageMedia chat messageId)).2 chat))
      (editPhoto remote s chat messageId) ∧
    (∀ j, remote s.log.length (.sendPhoto chat) = .json j → j.ok = true →
      (sendPhoto remote s chat).1.message_id = j.result.bind (fun r => r.message_id)) ∧
    (∀ j, remote s.log.length (.sendPhoto chat) = .json j → j.ok = false →
      j.error_code = some 400 → descIncludes j "TOPIC_CLOSED" = false →
      (sendPhoto remote s chat).1.ok = false) := by
  refine ⟨?_, ?_, ?_, ?_⟩
  · unfold sendPhoto call pinMessage call
    dsimp only
    cases hr : remote s.log.length (.sendPhoto chat) with
    | networkError => simp [tableOutcome, Realises]
    | json j =>
      simp only [tableOutcome, specOutcome]
      cases hok : j.ok
      · by_cases h1 : j.error_code = some 403 ∧ descNotMember j = true
        · have h1' := h1
          unfold descNotMember at h1'
          simp [Realises, h1, h1'.2, removeChat_map]
        · have h1' := h1
          unfold descNotMember at h1'
          by_cases h2 : j.error_code = some 400 ∧ descIncludes j "TOPIC_CLOSED" = true
          · have h2' := h2
            unfold descIncludes at h2'
            simp [Realises, h1, h1', h2, h2'.2]
          · have h2' := h2
            unfold descIncludes at h2'
            simp [Realises, h1, h1', h2, h2']
      · simp [Realises]
  · unfold editPhoto call pinMessage call
    dsimp only
    cases hr : remote s.log.length (.editMessageMedia chat messageId) with
    | networkError => simp [tableOutcome, Realises]
    | json j =>
      simp only [tableOutcome, specOutcome]
      cases hok : j.ok
      · by_cases h4 : j.error_code = some 400
        · have h43 : ¬ (j.error_code = some 403) := by rw [h4]; decide
          by_cases hnm : descIncludes j "message is not modified" = true
          · have hnm' := hnm
            unfold descIncludes at hnm'
            by_cases htc : descIncludes j "TOPIC_CLOSED" = true
            · have htc' := htc
              unfold descIncludes at htc'
              simp [Realises, h4, hnm, hnm', htc, htc']
            · have htc' := htc
              unfold descIncludes at htc'
              simp [Realises, h4, hnm, hnm', htc, htc']
          · have hnm' := hnm
            unfold descIncludes at hnm'
            by_cases htc : descIncludes j "TOPIC_CLOSED" = true
            · have htc' := htc
              unfold descIncludes at htc'
              simp [Realises, h4, hnm, hnm', htc, htc']
            · have htc' := htc
              unfold descIncludes at htc'
              simp [Realises, h4, hnm, hnm', htc, htc']
        · by_cases h1 : j.error_code = some 403 ∧ descNotMember j = true
          · have h1' := h1
            unfold descNotMember at h1'
            simp [Realises, h4, h1, h1'.2, removeChat_map]
          · have h1' := h1
            unfold descNotMember at h1'
            simp [Realises, h4, h1, h1']
      · simp [Realises]
  · intro j hj hok
    rw [sendPhoto_ok remote s chat j hj hok]
  · intro j hj hok h4 htc
    unfold sendPhoto call
    simp [hj, hok, h4, htc]

/-! ## Command processor -/

theorem sendTextMessage_state (remote : Remote) (s : St) (c t : String) :
    (sendTextMessage remote s c t).2 = { s with log := s.log ++ [.sendMessage c t] } := by
  unfold sendTextMessage call
  dsimp only
  split
  · rfl
  · split_ifs <;> rfl

theorem deleteMessage_state (remote : Remote) (s : St) (c : String) (m : Int) :
    (deleteMessage remote s c m).2 = { s with log := s.log ++ [.deleteMessage c m] } := by
  unfold deleteMessage call
  dsimp only
  split <;> rfl

theorem deleteMessage_ok (remote : Remote) (s : St) (c : String) (m : Int) :
    (deleteMessage remote s c m).1 = isOk (remote s.log.length (.deleteMessage c m)) := by
  unfold deleteMessage call isOk
  dsimp only
  split <;> simp_all

theorem verifyRemotePng_state (remote : Remote) (s : St) (url : String) :
    (verifyRemotePng remote s url).2 = { s with log := s.log ++ [.verifyRemotePng url] } := by
  unfold verifyRemotePng call
  dsimp only
  split <;> rfl

theorem verifyRemotePng_ok (remote : Remote) (s : St) (url : String) :
    (verifyRemotePng remote s url).1 = isOk (remote s.log.length (.verifyRemotePng url)) := by
  unfold verifyRemotePng call isOk
  dsimp only
  split <;> simp_all

theorem deleteCommandMessage_map (remote : Remote) (s : St) (c : String) (msg : Message) :
    (deleteCommandMessage remote s c msg).messageMap = s.messageMap ∧
    (deleteCommandMessage remote s c msg).mapDirty = s.mapDirty := by
  unfold deleteCommandMessage
  split_ifs
  · rw [deleteMessage_state]; exact ⟨rfl, rfl⟩
  · exact ⟨rfl, rfl⟩

theorem capMatch_empty : capMatch "" = none := by decide

theorem results_reconcileChat_chat (remote : Remote) (D : String) (acc : St × List Result)
    (k : String) :
    ∃ r, (reconcileChat remote D acc k).2 = acc.2 ++ [r] ∧
      r.chat = effectiveOf D k ((acc.1.messageMap.get k).getD {}) := by
  have hs := sendPhoto_chat remote acc.1 (effectiveOf D k ((acc.1.messageMap.get k).getD {}))
  have he := editPhoto_chat remote acc.1 (effectiveOf D k ((acc.1.messageMap.get k).getD {}))
    (((acc.1.messageMap.get k).bind (fun r => r.message_id)).getD 0)
  unfold reconcileChat
  dsimp only
  split_ifs
  · exact ⟨_, rfl, rfl⟩
  · exact ⟨_, rfl, rfl⟩
  all_goals first
    | exact ⟨_, rfl, hs⟩
    | exact ⟨_, rfl, he⟩

/-- The pass pushes one result for a chat of the registry, and it carries the effective
configuration computed from the stored record. -/
theorem reconcile_effective (remote : Remote) (D : String) (s : St) (c : String)
    (rec : ChatRecord) (hnd : (s.messageMap.map Prod.fst).Nodup)
    (hrec : s.messageMap.get c = some rec) :
    (∃ r ∈ (reconcile remote D s).2, r.chat.chat_id = c) ∧
    ∀ r ∈ (reconcile remote D s).2, r.chat.chat_id = c → r.chat = effectiveOf D c rec := by
  have hmem : c ∈ s.messageMap.map Prod.fst := Registry.mem_of_get _ _ _ hrec
  obtain ⟨L1, L2, h1, h2, hfold⟩ := fold_split remote D c _ hmem hnd (s, [])
  obtain ⟨f1, _, _, _, _, f6⟩ := fold_frame remote D c L1 h1 (s, [])
  obtain ⟨_, _, _, _, g5, g6⟩ := fold_frame remote D c L2 h2
    (reconcileChat remote D (L1.foldl (reconcileChat remote D) (s, [])) c)
  obtain ⟨r0, hr0, hr0c⟩ := results_reconcileChat_chat remote D
    (L1.foldl (reconcileChat remote D) (s, [])) c
  rw [f1, hrec] at hr0c
  simp only [Option.getD_some] at hr0c
  unfold reconcile
  rw [hfold]
  refine ⟨⟨r0, g5 r0 (by rw [hr0]; simp), by rw [hr0c]; rfl⟩, ?_⟩
  intro r hr hrc
  have := g6 r hr hrc
  rw [hr0] at this
  rcases List.mem_append.mp this with h | h
  · have := f6 r h hrc
    simp at this
  · simp only [List.mem_singleton] at h
    rw [h, hr0c]

theorem Registry.keys_modify (m : Registry) (k : String) (f : ChatRecord → ChatRecord) :
    (m.modify k f).map Prod.fst = m.map Prod.fst := by
  unfold Registry.modify
  rw [List.map_map]
  apply List.map_congr_left
  intro e _
  simp only [Function.comp]
  split_ifs <;> rfl

/-! ## What the calls of a pass carry -/

theorem sends_refl (k : String) (e : Effective) (s : St) : Sends k e s s :=
  ⟨[], by simp, by simp⟩

theorem sends_trans {k : String} {e : Effective} {s t u : St} (h1 : Sends k e s t)
    (h2 : Sends k e t u) : Sends k e s u := by
  obtain ⟨e1, l1, m1⟩ := h1
  obtain ⟨e2, l2, m2⟩ := h2
  refine ⟨e1 ++ e2, by rw [l2, l1, List.append_assoc], ?_⟩
  intro q hq
  rcases List.mem_append.mp hq with h | h
  · exact m1 q h
  · exact m2 q h

theorem sends_of_log {k : String} {e : Effective} {s t : St} (h : t.log = s.log) :
    Sends k e s t :=
  ⟨[], by simp [h], by simp⟩

theorem sends_call (remote : Remote) (s : St) (q : Request) (k : String) (e : Effective)
    (hq : Request.chatId q = some k) (he : ∀ e1, Request.effective q = some e1 → e1 = e) :
    Sends k e s (call remote s q).2 :=
  ⟨[q], rfl, by
    intro q1 h1
    simp only [List.mem_singleton] at h1
    subst h1
    exact ⟨hq, he⟩⟩

theorem sends_pinMessage (remote : Remote) (s : St) (k : String) (e : Effective)
    (m : Option Int) : Sends k e s (pinMessage remote s k m) :=
  sends_call remote s _ k e rfl (by intro e1 h; cases h)

theorem sends_sendPhoto (remote : Remote) (s : St) (chat : Effective) :
    Sends chat.chat_id chat s (sendPhoto remote s chat).2 := by
  have hc := sends_call remote s (.sendPhoto chat) chat.chat_id chat rfl
    (by intro e1 h; cases h; rfl)
  unfold sendPhoto
  simp only []
  split
  · exact hc
  · split_ifs
    · exact sends_trans hc (sends_of_log (removeChat_log _ _))
    · exact hc
    · exact hc
    · exact sends_trans hc (sends_pinMessage remote _ _ _ _)

theorem sends_editPhoto (remote : Remote) (s : St) (chat : Effective) (messageId : Int) :
    Sends chat.chat_id chat s (editPhoto remote s chat messageId).2 := by
  have hc := sends_call remote s (.editMessageMedia chat messageId) chat.chat_id chat rfl
    (by intro e1 h; cases h; rfl)
  unfold editPhoto
  simp only []
  split
  · exact hc
  · split_ifs
    · exact sends_trans hc (sends_pinMessage remote _ _ _ _)
    · exact hc
    · exact sends_trans hc (sends_sendPhoto remote _ _)
    · exact sends_trans hc (sends_of_log (removeChat_log _ _))
    · exact hc
    · exact sends_trans hc (sends_pinMessage remote _ _ _ _)

theorem sends_reconcileChat (remote : Remote) (D : String) (acc : St × List Result)
    (k : String) :
    Sends k (effectiveOf D k ((acc.1.messageMap.get k).getD {})) acc.1
      (reconcileChat remote D acc k).1 := by
  have hs := sends_sendPhoto remote acc.1 (effectiveOf D k ((acc.1.messageMap.get k).getD {}))
  have he := sends_editPhoto remote acc.1 (effectiveOf D k ((acc.1.messageMap.get k).getD {}))
    (((acc.1.messageMap.get k).bind (fun r => r.message_id)).getD 0)
  rw [effectiveOf_chat_id] at hs he
  unfold reconcileChat
  dsimp only
  split_ifs
  · exact sends_refl _ _ _
  · exact sends_refl _ _ _
  · exact hs
  · exact sends_trans (sends_trans hs (sends_of_log (setMessageId_log _ _ _)))
      (sends_of_log (updateStoredChatFields_log _ _ _))
  · exact sends_trans hs (sends_of_log (updateStoredChatFields_log _ _ _))
  · exact he
  · exact sends_trans (sends_trans he (sends_of_log (setMessageId_log _ _ _)))
      (sends_of_log (updateStoredChatFields_log _ _ _))
  · exact sends_trans he (sends_of_log (updateStoredChatFields_log _ _ _))

/-- The calls of a pass over chats other than `c` are addressed to other chats. -/
theorem fold_sends_others (remote : Remote) (D c : String) (L : List String) (hL : c ∉ L)
    (acc : St × List Result) :
    ∃ extra, (L.foldl (reconcileChat remote D) acc).1.log = acc.1.log ++ extra ∧
      ∀ q ∈ extra, Request.chatId q ≠ some c := by
  induction L generalizing acc with
  | nil => exact ⟨[], by simp, by simp⟩
  | cons k L ih =>
    have hk : c ≠ k := fun h => hL (by simp [h])
    have hL' : c ∉ L := fun h => hL (by simp [h])
    obtain ⟨e1, l1, m1⟩ := sends_reconcileChat remote D acc k
    obtain ⟨e2, l2, m2⟩ := ih hL' (reconcileChat remote D acc k)
    refine ⟨e1 ++ e2, by rw [List.foldl_cons, l2, l1, List.append_assoc], ?_⟩
    intro q hq
    rcases List.mem_append.mp hq with h | h
    · rw [(m1 q h).1]
      intro hh
      exact hk (Option.some.inj hh).symm
    · exact m2 q h

/-- Every create or update call a pass issues for a chat of the registry carries the effective
configuration computed from the stored record. -/
theorem reconcile_sends_effective (remote : Remote) (D : String) (s : St) (c : String)
    (rec : ChatRecord) (hnd : (s.messageMap.map Prod.fst).Nodup)
    (hrec : s.messageMap.get c = some rec) :
    ∃ extra, (reconcile remote D s).1.log = s.log ++ extra ∧
      ∀ q ∈ extra, Request.chatId q = some c →
        ∀ e, Request.effective q = some e → e = effectiveOf D c rec := by
  have hmem : c ∈ s.messageMap.map Prod.fst := Registry.mem_of_get _ _ _ hrec
  obtain ⟨L1, L2, h1, h2, hfold⟩ := fold_split remote D c _ hmem hnd (s, [])
  obtain ⟨f1, _⟩ := fold_frame remote D c L1 h1 (s, [])
  obtain ⟨x1, l1, m1⟩ := fold_sends_others remote D c L1 h1 (s, [])
  obtain ⟨x2, l2, m2⟩ := sends_reconcileChat remote D
    (L1.foldl (reconcileChat remote D) (s, [])) c
  obtain ⟨x3, l3, m3⟩ := fold_sends_others remote D c L2 h2
    (reconcileChat remote D (L1.foldl (reconcileChat remote D) (s, [])) c)
  rw [f1, hrec] at m2
  simp only [Option.getD_some] at m2
  unfold reconcile
  rw [hfold]
  refine ⟨x1 ++ x2 ++ x3, by rw [l3, l2, l1]; simp [List.append_assoc], ?_⟩
  intro q hq hqc e he
  rcases List.mem_append.mp hq with h | h
  · rcases List.mem_append.mp h with h | h
    · exact absurd hqc (m1 q h)
    · exact (m2 q h).2 e he
  · exact absurd hqc (m3 q h)

theorem reconcileChat_edit_calls (remote : Remote) (D : String) (acc : St × List Result)
    (c : String) (rec : ChatRecord)
    (hrec : acc.1.messageMap.get c = some rec) (hc : c ≠ "")
    (himg : truthyStr rec.image_url = true) (hk : truthyNum rec.message_id = true) :
    editCalls c (reconcileChat remote D acc c).1.log = editCalls c acc.1.log + 1 := by
  have hne : (c == "") = false := by simpa using hc
  have himg' : truthyStr (effectiveOf D c rec).image_url = true := himg
  have hs := editPhoto_editCalls remote acc.1 (effectiveOf D c rec) (rec.message_id.getD 0) c
  rw [effectiveOf_chat_id] at hs
  simp only [if_true] at hs
  unfold reconcileChat
  simp only [hrec, Option.getD_some, effectiveOf_chat_id, hne, himg', Option.some_bind, hk,
    Bool.not_false, Bool.not_true, Bool.false_eq_true, if_true, if_false]
  split_ifs <;> simp only [updateStoredChatFields_log, setMessageId_log] <;> exact hs

/-- A pass issues a create call or an update call for every chat of the registry that has an
image. -/
theorem reconcile_issues_call (remote : Remote) (D : String) (s : St) (c : String)
    (rec : ChatRecord) (hnd : (s.messageMap.map Prod.fst).Nodup)
    (hrec : s.messageMap.get c = some rec) (hc : c ≠ "")
    (himg : truthyStr rec.image_url = true) :
    createCalls c (reconcile remote D s).1.log = createCalls c s.log + 1 ∨
    editCalls c (reconcile remote D s).1.log = editCalls c s.log + 1 := by
  have hmem : c ∈ s.messageMap.map Prod.fst := Registry.mem_of_get _ _ _ hrec
  obtain ⟨L1, L2, h1, h2, hfold⟩ := fold_split remote D c _ hmem hnd (s, [])
  obtain ⟨f1, _, f3, f4, _, _⟩ := fold_frame remote D c L1 h1 (s, [])
  obtain ⟨_, _, g3, g4, _, _⟩ := fold_frame remote D c L2 h2
    (reconcileChat remote D (L1.foldl (reconcileChat remote D) (s, [])) c)
  have hrec1 : (L1.foldl (reconcileChat remote D) (s, [])).1.messageMap.get c = some rec := by
    rw [f1]; exact hrec
  unfold reconcile
  rw [hfold, g3, g4]
  by_cases hk : truthyNum rec.message_id = true
  · right
    rw [reconcileChat_edit_calls remote D _ c rec hrec1 hc himg hk, f4]
  · left
    have hk' : truthyNum rec.message_id = false := by simpa using hk
    rw [(reconcileChat_create_calls remote D _ c rec hrec1 hc himg hk').1, f3]

/-- The effective caption of a pass for a chat whose record has no caption: the pass pushes a
result for the chat, every result and every create or update call for the chat carries the
default caption, and a call is issued when the chat has an image. -/
theorem reconcile_default_caption (remote : Remote) (D : String) (s : St) (c : String)
    (rec : ChatRecord) (hnd : (s.messageMap.map Prod.fst).Nodup)
    (hrec : s.messageMap.get c = some rec) (hcap : rec.caption = none) :
    (∃ r ∈ (reconcile remote D s).2, r.chat.chat_id = c ∧ r.chat.caption = D) ∧
    (∀ r ∈ (reconcile remote D s).2, r.chat.chat_id = c → r.chat.caption = D) ∧
    (∃ extra, (reconcile remote D s).1.log = s.log ++ extra ∧
      ∀ q ∈ extra, Request.chatId q = some c →
        ∀ e, Request.effective q = some e → e.caption = D) ∧
    (truthyStr rec.image_url = true → c ≠ "" →
      createCalls c (reconcile remote D s).1.log = createCalls c s.log + 1 ∨
      editCalls c (reconcile remote D s).1.log = editCalls c s.log + 1) := by
  have hD : (effectiveOf D c rec).caption = D := by simp [effectiveOf, hcap]
  obtain ⟨⟨r, hr, hrc⟩, hall⟩ := reconcile_effective remote D s c rec hnd hrec
  obtain ⟨extra, hl, hm⟩ := reconcile_sends_effective remote D s c rec hnd hrec
  refine ⟨⟨r, hr, hrc, ?_⟩, ?_, ⟨extra, hl, ?_⟩, ?_⟩
  · rw [hall r hr hrc, hD]
  · intro r1 hr1 hrc1
    rw [hall r1 hr1 hrc1, hD]
  · intro q hq hqc e he
    rw [hm q hq hqc e he, hD]
  · intro himg hc
    exact reconcile_issues_call remote D s c rec hnd hrec hc himg

/-- C6. A chat whose record has no caption is reconciled with the default caption as its
effective caption: the pass pushes a result for the chat, every result and every create or
update call for the chat carries the default caption, and such a call is issued when the chat
has an image. For a chat whose record has a custom caption, processing a message of that chat
whose text matches the caption command with an argument that, trimmed and lowered, is
`-default` removes the caption from the record and raises the dirty flag, and the next pass
reconciles the chat with the default caption in the same sense. -/
theorem default_caption_fallback (remote remote1 remote2 : Remote)
    (OUTAGE_IMAGES_BASE : String) (isValidOutageImageUrl : String → Bool) (D : String)
    (s0 : St) (c0 : String) (rec0 : ChatRecord)
    (hnd0 : (s0.messageMap.map Prod.fst).Nodup)
    (hrec0 : s0.messageMap.get c0 = some rec0) (hcap0 : rec0.caption = none)
    (s : St) (u : Update) (msg : Message) (chat : Chat) (rec : ChatRecord) (cap raw : String)
    (hnd : (s.messageMap.map Prod.fst).Nodup)
    (hmsg : (u.message <|> u.channel_post) = some msg) (hchat : msg.chat = some chat)
    (hrec : s.messageMap.get (toString chat.id) = some rec) (hcap : rec.caption = some cap)
    (hmatch : capMatch (textOf msg) = some raw)
    (harg : toLowerCase (trim raw) = "-default") :
    ((∃ r ∈ (reconcile remote1 D s0).2, r.chat.chat_id = c0 ∧ r.chat.caption = D) ∧
      (∀ r ∈ (reconcile remote1 D s0).2, r.chat.chat_id = c0 → r.chat.caption = D) ∧
      (∃ extra, (reconcile remote1 D s0).1.log = s0.log ++ extra ∧
        ∀ q ∈ extra, Request.chatId q = some c0 →
          ∀ e, Request.effective q = some e → e.caption = D) ∧
      (truthyStr rec0.image_url = true → c0 ≠ "" →
        createCalls c0 (reconcile remote1 D s0).1.log = createCalls c0 s0.log + 1 ∨
        editCalls c0 (reconcile remote1 D s0).1.log = editCalls c0 s0.log + 1)) ∧
    (processCommandUpdates remote OUTAGE_IMAGES_BASE isValidOutageImageUrl s [u]).1.messageMap.get
        (toString chat.id) = some { rec with caption := none } ∧
    (processCommandUpdates remote OUTAGE_IMAGES_BASE isValidOutageImageUrl s [u]).1.mapDirty
      = true ∧
    ((∃ r ∈ (reconcile remote2 D
          (processCommandUpdates remote OUTAGE_IMAGES_BASE isValidOutageImageUrl s [u]).1).2,
        r.chat.chat_id = toString chat.id ∧ r.chat.caption = D) ∧
      (∀ r ∈ (reconcile remote2 D
          (processCommandUpdates remote OUTAGE_IMAGES_BASE isValidOutageImageUrl s [u]).1).2,
        r.chat.chat_id = toString chat.id → r.chat.caption = D) ∧
      (∃ extra, (reconcile remote2 D
          (processCommandUpdates remote OUTAGE_IMAGES_BASE isValidOutageImageUrl s
            [u]).1).1.log =
          (processCommandUpdates remote OUTAGE_IMAGES_BASE isValidOutageImageUrl s [u]).1.log
            ++ extra ∧
        ∀ q ∈ extra, Request.chatId q = some (toString chat.id) →
          ∀ e, Request.effective q = some e → e.caption = D) ∧
      (truthyStr rec.image_url = true → toString chat.id ≠ "" →
        createCalls (toString chat.id) (reconcile remote2 D
          (processCommandUpdates remote OUTAGE_IMAGES_BASE isValidOutageImageUrl s
            [u]).1).1.log =
          createCalls (toString chat.id)
            (processCommandUpdates remote OUTAGE_IMAGES_BASE isValidOutageImageUrl s
              [u]).1.log + 1 ∨
        editCalls (toString chat.id) (reconcile remote2 D
          (processCommandUpdates remote OUTAGE_IMAGES_BASE isValidOutageImageUrl s
            [u]).1).1.log =
          editCalls (toString chat.id)
            (processCommandUpdates remote OUTAGE_IMAGES_BASE isValidOutageImageUrl s
              [u]).1.log + 1)) := by
  have htext : (textOf msg == "") = false := by
    by_contra h
    have h' : textOf msg = "" := by simpa using h
    rw [h', capMatch_empty] at hmatch
    cases hmatch
  have hmap : (processCommandUpdates remote OUTAGE_IMAGES_BASE isValidOutageImageUrl s
      [u]).1.messageMap =
      s.messageMap.modify (toString chat.id) (fun r => { r with caption := none }) := by
    unfold processCommandUpdates processCommand
    simp only [List.foldl_cons, List.foldl_nil, hmsg, hchat, htext, hmatch, harg,
      Bool.false_eq_true, if_false, beq_self_eq_true, if_true,
      Registry.ensure_of_get _ _ _ hrec, hrec, Option.some_bind, hcap, Option.isSome_some,
      sendTextMessage_state, (deleteCommandMessage_map _ _ _ _).1]
  have hget : (processCommandUpdates remote OUTAGE_IMAGES_BASE isValidOutageImageUrl s
      [u]).1.messageMap.get (toString chat.id) = some { rec with caption := none } := by
    rw [hmap]
    simp [Registry.get_modify, hrec]
  have hnd1 : ((processCommandUpdates remote OUTAGE_IMAGES_BASE isValidOutageImageUrl s
      [u]).1.messageMap.map Prod.fst).Nodup := by
    rw [hmap, Registry.keys_modify]
    exact hnd
  have hnext := reconcile_default_caption remote2 D
    (processCommandUpdates remote OUTAGE_IMAGES_BASE isValidOutageImageUrl s [u]).1
    (toString chat.id) { rec with caption := none } hnd1 hget rfl
  refine ⟨reconcile_default_caption remote1 D s0 c0 rec0 hnd0 hrec0 hcap0, hget, ?_, hnext⟩
  unfold processCommandUpdates processCommand
  simp only [List.foldl_cons, List.foldl_nil, hmsg, hchat, htext, hmatch, harg,
    Bool.false_eq_true, if_false, beq_self_eq_true, if_true,
    Registry.ensure_of_get _ _ _ hrec, hrec, Option.some_bind, hcap, Option.isSome_some,
    sendTextMessage_state, (deleteCommandMessage_map _ _ _ _).2]

theorem imgMatch_empty : imgMatch "" = none := by decide

/-- C10 (amended). For every chat and every message of it whose text is an image command
with a url that passes the format check and the remote verification: after the command is
processed the record of the chat has `image_url` set to the url and the dirty flag is raised;
the record has no `welcome_message_id` when it had a (truthy) one and the remote answered its
deletion with `ok`, and keeps the stored `welcome_message_id` otherwise; the other fields are
unchanged. -/
theorem image_command_stores_url (remote : Remote) (OUTAGE_IMAGES_BASE : String)
    (isValidOutageImageUrl : String → Bool) (s : St) (u : Update) (msg : Message)
    (chat : Chat) (url : String)
    (hmsg : (u.message <|> u.channel_post) = some msg) (hchat : msg.chat = some chat)
    (hcap : capMatch (textOf msg) = none) (hmatch : imgMatch (textOf msg) = some url)
    (hvalid : isValidOutageImageUrl url = true)
    (hver : isOk (remote s.log.length (.verifyRemotePng url)) = true) :
    (processCommandUpdates remote OUTAGE_IMAGES_BASE isValidOutageImageUrl s [u]).1.messageMap.get
        (toString chat.id) =
      some { (s.messageMap.get (toString chat.id)).getD {} with
        image_url := some url
        welcome_message_id :=
          (if (truthyNum ((s.messageMap.get (toString chat.id)).getD {}).welcome_message_id &&
              isOk (remote (s.log.length + 1) (.deleteMessage (toString chat.id)
                ((((s.messageMap.get (toString chat.id)).getD {}).welcome_message_id).getD 0))))
              = true
            then none
            else ((s.messageMap.get (toString chat.id)).getD {}).welcome_message_id) } ∧
    (processCommandUpdates remote OUTAGE_IMAGES_BASE isValidOutageImageUrl s [u]).1.mapDirty
      = true := by
  have htext : (textOf msg == "") = false := by
    by_contra h
    have h' : textOf msg = "" := by simpa using h
    rw [h', imgMatch_empty] at hmatch
    cases hmatch
  unfold processCommandUpdates processCommand
  simp only [List.foldl_cons, List.foldl_nil, hmsg, hchat, htext, hcap, hmatch, hvalid,
    Bool.false_eq_true, if_false, Bool.not_true, verifyRemotePng_ok, hver,
    verifyRemotePng_state, sendTextMessage_state, deleteMessage_ok, deleteMessage_state]
  constructor
  · rw [(deleteCommandMessage_map _ _ _ _).1]
    dsimp only
    simp only [Registry.get_modify, Registry.get_ensure, if_true, Option.map_some',
      Option.some_bind, List.length_append, List.length_singleton]
    by_cases hw : truthyNum
        ((s.messageMap.get (toString chat.id)).getD {}).welcome_message_id = true
    · simp only [hw, if_true, Bool.true_and]
      by_cases hd : isOk (remote (s.log.length + 1) (.deleteMessage (toString chat.id)
          ((((s.messageMap.get (toString chat.id)).getD {}).welcome_message_id).getD 0)))
          = true
      · simp [hd, Registry.get_modify, Registry.get_ensure]
      · simp [hd, Registry.get_modify, Registry.get_ensure]
    · simp [hw, Registry.get_modify, Registry.get_ensure]
  · rw [(deleteCommandMessage_map _ _ _ _).2]
    dsimp only
    split_ifs <;> rfl

/-! ## Fetching updates -/

theorem foldl_last_id (batch : List Update) (init : Option Int) :
    batch.foldl (fun _ u => some u.update_id) init =
      match batch.getLast? with
      | some u => some u.update_id
      | none => init := by
  induction batch generalizing init with
  | nil => rfl
  | cons u us ih =>
    rw [List.foldl_cons, ih]
    cases us with
    | nil => rfl
    | cons v vs =>
      rw [List.getLast?_cons_cons]
      cases hl : (v :: vs).getLast? with
      | none => simp at hl
      | some l => rfl

theorem maxUpdateId_le (batch : List Update) (m : Int) (h : maxUpdateId batch = some m) :
    ∀ u ∈ batch, u.update_id ≤ m := by
  induction batch generalizing m with
  | nil => simp
  | cons v vs ih =>
    intro u hu
    unfold maxUpdateId at h
    cases hm : maxUpdateId vs with
    | none =>
      rw [hm] at h
      cases vs with
      | nil =>
        simp only [List.mem_singleton] at hu
        subst hu
        cases h
        exact le_refl _
      | cons w ws =>
        unfold maxUpdateId at hm
        split at hm <;> cases hm
    | some m' =>
      rw [hm] at h
      simp only [Option.some.injEq] at h
      subst h
      rcases List.mem_cons.mp hu with h1 | h1
      · subst h1; exact le_max_left _ _
      · exact le_trans (ih m' hm u h1) (le_max_right _ _)

theorem maxUpdateId_sorted (batch : List Update)
    (hs : (batch.map (fun u => u.update_id)).Pairwise (fun a b => a ≤ b)) :
    maxUpdateId batch = batch.getLast?.map (fun u => u.update_id) := by
  induction batch with
  | nil => rfl
  | cons v vs ih =>
    simp only [List.map_cons, List.pairwise_cons] at hs
    have ih' := ih hs.2
    unfold maxUpdateId
    cases vs with
    | nil => rfl
    | cons w ws =>
      rw [ih', List.getLast?_cons_cons]
      cases hl : (w :: ws).getLast? with
      | none => simp at hl
      | some l =>
        have hmem : l ∈ w :: ws := List.mem_of_getLast?_eq_some hl
        have : v.update_id ≤ l.update_id := hs.1 _ (List.mem_map.mpr ⟨l, hmem, rfl⟩)
        simp [max_eq_right this]

/-- C8 (counterexample). On the batch with the update ids 5, 3 the returned `lastUpdateId` is
3 while the maximum over the batch is 5. -/
theorem unordered_batch_last_not_max :
    (getUpdates (.json true (some [textUpdate 5 "a", textUpdate 3 "b"]))).2 = some 3 ∧
    maxUpdateId [textUpdate 5 "a", textUpdate 3 "b"] = some 5 := by
  decide

/-- C8 (amended). For every successfully fetched batch, `getUpdates` returns the batch and
the `update_id` of its last event as `lastUpdateId`: none when the batch is empty, and the
maximum `update_id` over the batch whenever the batch is in non-decreasing order of
`update_id`. -/
theorem last_update_id_is_last (batch : List Update) :
    getUpdates (.json true (some batch)) =
      (batch, batch.getLast?.map (fun u => u.update_id)) ∧
    (batch = [] → (getUpdates (.json true (some batch))).2 = none) ∧
    ((batch.map (fun u => u.update_id)).Pairwise (fun a b => a ≤ b) →
      (getUpdates (.json true (some batch))).2 = maxUpdateId batch) := by
  have h : getUpdates (.json true (some batch)) =
      (batch, batch.getLast?.map (fun u => u.update_id)) := by
    unfold getUpdates
    simp only [Bool.not_true, Bool.false_eq_true, if_false]
    rw [foldl_last_id]
    cases batch.getLast? <;> rfl
  refine ⟨h, ?_, ?_⟩
  · intro he
    subst he
    rfl
  · intro hs
    rw [h, maxUpdateId_sorted batch hs]

/-- Witness of `last_update_id_is_last`. -/
theorem last_update_id_is_last_witness :
    (getUpdates (.json true (some [textUpdate 3 "a", textUpdate 5 "b"]))).2 =
      maxUpdateId [textUpdate 3 "a", textUpdate 5 "b"] :=
  (last_update_id_is_last [textUpdate 3 "a", textUpdate 5 "b"]).2.2 (by decide)

/-! ## Instances -/

/-- Witness of `not_member_unregisters`. -/
theorem not_member_unregisters_witness :
    (∃ r ∈ (reconcile notMemberRemote "Outage schedule"
        { messageMap := exampleRegistry, mapDirty := false }).2,
      r.chat.chat_id = "100" ∧ r.ok = true ∧ r.reason = some "unregistered" ∧
      r ∉ failures (reconcile notMemberRemote "Outage schedule"
        { messageMap := exampleRegistry, mapDirty := false }).2) ∧
    (reconcile notMemberRemote "Outage schedule"
      { messageMap := exampleRegistry, mapDirty := false }).1.messageMap.get "100" = none ∧
    (reconcile notMemberRemote "Outage schedule"
      { messageMap := exampleRegistry, mapDirty := false }).1.mapDirty = true :=
  not_member_unregisters notMemberRemote "Outage schedule"
    { messageMap := exampleRegistry, mapDirty := false } "100"
    { image_url := some "https://x/a.png" } (by decide) (by decide) (by decide)
    (Or.inl ⟨by decide, fun _ _ _ => rfl⟩)

/-- Witness of `fallback_creates_once`. -/
theorem fallback_creates_once_witness :
    createCalls "100" (reconcile goneRemote "Outage schedule"
      { messageMap := postedRegistry, mapDirty := false }).1.log = 1 ∧
    ((reconcile goneRemote "Outage schedule"
      { messageMap := postedRegistry, mapDirty := false }).1.messageMap.get "100").bind
        (fun r => r.message_id) = some 555 ∧
    (reconcile goneRemote "Outage schedule"
      { messageMap := postedRegistry, mapDirty := false }).1.mapDirty = true := by
  obtain ⟨h1, h2⟩ := fallback_creates_once goneRemote "Outage schedule"
    { messageMap := postedRegistry, mapDirty := false } "100"
    { image_url := some "https://x/a.png", message_id := some 7 } 7
    (by decide) (by decide) (by decide) (by decide) rfl (by decide)
    (fun _ q h => by cases q <;> first | rfl | simp [isEditFor] at h)
  obtain ⟨_, ⟨rec1, hg, hm, _⟩, hd⟩ := h2 555 (by decide)
    (fun _ q h => by cases q <;> first | rfl | simp [isCreateFor] at h)
  exact ⟨h1, by rw [hg]; exact hm, hd (by decide)⟩

/-- Witness of `create_stores_message_id`: the example scenario of the specification. -/
theorem create_stores_message_id_witness :
    (reconcile okRemote "Outage schedule"
      { messageMap := exampleRegistry, mapDirty := false }).1.messageMap.get "100" =
      some { image_url := some "https://x/a.png", caption := some "Outage schedule",
             message_id := some 555 } ∧
    (reconcile okRemote "Outage schedule"
      { messageMap := exampleRegistry, mapDirty := false }).1.mapDirty = true :=
  (create_stores_message_id okRemote "Outage schedule"
    { messageMap := exampleRegistry, mapDirty := false } "100"
    { image_url := some "https://x/a.png" }
    (by decide) (by decide) (by decide) (by decide) rfl).2 555 (by decide)
    (fun _ q h => by cases q <;> first | rfl | simp [isCreateFor] at h) (fun _ => by decide)

/-- Witness of `second_pass_unchanged`. -/
theorem second_pass_unchanged_witness :
    (reconcile sameRemote "Outage schedule"
      { messageMap := (reconcile okRemote "Outage schedule"
          { messageMap := exampleRegistry, mapDirty := false }).1.messageMap,
        mapDirty := false, log := [] }).1.messageMap =
      (reconcile okRemote "Outage schedule"
        { messageMap := exampleRegistry, mapDirty := false }).1.messageMap ∧
    (reconcile sameRemote "Outage schedule"
      { messageMap := (reconcile okRemote "Outage schedule"
          { messageMap := exampleRegistry, mapDirty := false }).1.messageMap,
        mapDirty := false, log := [] }).1.mapDirty = false := by
  have h := second_pass_unchanged okRemote sameRemote "Outage schedule"
    { messageMap := exampleRegistry, mapDirty := false } (by decide)
    (fun _ _ => ⟨555, by decide, rfl⟩) (fun _ _ _ => rfl) (fun _ _ _ => rfl)
    false []
  exact ⟨h.1, h.2.1⟩

/-- Witness of `default_caption_fallback`. -/
theorem default_caption_fallback_witness :
    (∃ r ∈ (reconcile okRemote "Outage schedule"
        { messageMap := exampleRegistry, mapDirty := false }).2,
      r.chat.chat_id = "100" ∧ r.chat.caption = "Outage schedule") ∧
    (createCalls "100" (reconcile okRemote "Outage schedule"
        { messageMap := exampleRegistry, mapDirty := false }).1.log = 1 ∨
      editCalls "100" (reconcile okRemote "Outage schedule"
        { messageMap := exampleRegistry, mapDirty := false }).1.log = 1) ∧
    (processCommandUpdates okRemote "https://x/" (fun _ => true)
      { messageMap := captionRegistry, mapDirty := false }
      [textUpdate 1 "/graphenko_caption -DEFAULT"]).1.messageMap.get "-5" = some {} ∧
    (processCommandUpdates okRemote "https://x/" (fun _ => true)
      { messageMap := captionRegistry, mapDirty := false }
      [textUpdate 1 "/graphenko_caption -DEFAULT"]).1.mapDirty = true ∧
    (∃ r ∈ (reconcile okRemote "Outage schedule"
        (processCommandUpdates okRemote "https://x/" (fun _ => true)
          { messageMap := captionRegistry, mapDirty := false }
          [textUpdate 1 "/graphenko_caption -DEFAULT"]).1).2,
      r.chat.chat_id = "-5" ∧ r.chat.caption = "Outage schedule") := by
  have h := default_caption_fallback okRemote okRemote okRemote "https://x/" (fun _ => true)
    "Outage schedule" { messageMap := exampleRegistry, mapDirty := false } "100"
    { image_url := some "https://x/a.png" } (by decide) (by decide) rfl
    { messageMap := captionRegistry, mapDirty := false }
    (textUpdate 1 "/graphenko_caption -DEFAULT")
    { chat := some { id := -5, type := "supergroup" },
      text := some "/graphenko_caption -DEFAULT", message_id := some 10 }
    { id := -5, type := "supergroup" } { caption := some "Custom" } "Custom" "-DEFAULT"
    (by decide) rfl rfl (by decide) rfl (by decide) (by decide)
  exact ⟨h.1.1, h.1.2.2.2 (by decide) (by decide), h.2.1, h.2.2.1, h.2.2.2.1⟩

/-- C10 (counterexample). Chat -5 has the welcome message 7 and sends an image command that
passes both checks; the remote refuses the deletion of the welcome message, and the record
keeps `welcome_message_id` 7. -/
theorem welcome_id_kept_when_delete_fails :
    (processCommandUpdates noDeleteRemote "https://x/" (fun _ => true)
      { messageMap := welcomedRegistry, mapDirty := false }
      [textUpdate 1 "/graphenko_image https://x/a.png"]).1.messageMap.get "-5" =
      some { image_url := some "https://x/a.png", welcome_message_id := some 7 } := by
  decide

/-- Witness of `image_command_stores_url`. -/
theorem image_command_stores_url_witness :
    (processCommandUpdates okRemote "https://x/" (fun _ => true)
      { messageMap := welcomedRegistry, mapDirty := false }
      [textUpdate 1 "/graphenko_image https://x/a.png"]).1.messageMap.get "-5" =
      some { image_url := some "https://x/a.png" } ∧
    (processCommandUpdates okRemote "https://x/" (fun _ => true)
      { messageMap := welcomedRegistry, mapDirty := false }
      [textUpdate 1 "/graphenko_image https://x/a.png"]).1.mapDirty = true :=
  image_command_stores_url okRemote "https://x/" (fun _ => true)
    { messageMap := welcomedRegistry, mapDirty := false }
    (textUpdate 1 "/graphenko_image https://x/a.png")
    { chat := some { id := -5, type := "supergroup" },
      text := some "/graphenko_image https://x/a.png", message_id := some 10 }
    { id := -5, type := "supergroup" } "https://x/a.png"
    rfl rfl (by decide) (by decide) rfl rfl

/-- C7 (the code at the failing input). The bot joins chat -5 and is restricted in it within
one batch: `registerFromUpdates` leaves no record for the chat but still returns it as newly
registered, and the welcome phase, its message accepted by the remote, creates the record
again. -/
theorem welcome_recreates_removed_chat :
    (registerFromUpdates { messageMap := [], mapDirty := false }
      [memberUpdate 1 "member", memberUpdate 2 "restricted"]).1.messageMap = [] ∧
    (registerFromUpdates { messageMap := [], mapDirty := false }
      [memberUpdate 1 "member", memberUpdate 2 "restricted"]).2 = ["-5"] ∧
    (ingest okRemote { messageMap := [], mapDirty := false }
      [memberUpdate 1 "member", memberUpdate 2 "restricted"]).messageMap =
      [("-5", { welcome_message_id := some 7 })] := by
  decide

/-- C9 (the code at the failing input). Chat -5 has no record and sends a caption command
whose argument is blank: the text is not well formed, and the command processor creates an
empty record for the chat without raising the dirty flag. -/
theorem blank_caption_creates_record :
    capMatch "/graphenko_caption \u00a0" = some "\u00a0" ∧
    trim "\u00a0" = "" ∧
    wellFormedText (fun _ => true) "/graphenko_caption \u00a0" = false ∧
    (processCommandUpdates okRemote "https://x/" (fun _ => true)
      { messageMap := [], mapDirty := false }
      [textUpdate 1 "/graphenko_caption \u00a0"]).1.messageMap = [("-5", {})] ∧
    (processCommandUpdates okRemote "https://x/" (fun _ => true)
      { messageMap := [], mapDirty := false }
      [textUpdate 1 "/graphenko_caption \u00a0"]).1.mapDirty = false := by
  decide

/-! ## Commands and the records of known chats -/

/-- A message leaves the record of a known chat `B` alone unless it is a well-formed command
of `B`. -/
theorem processCommand_frame (remote : Remote) (OUTAGE_IMAGES_BASE : String)
    (isValidOutageImageUrl : String → Bool) (acc : St × List String) (u : Update)
    (B : String) (rec : ChatRecord) (hrec : acc.1.messageMap.get B = some rec)
    (hno : ∀ msg chat, (u.message <|> u.channel_post) = some msg → msg.chat = some chat →
      toString chat.id = B → wellFormedText isValidOutageImageUrl (textOf msg) = false) :
    (processCommand remote OUTAGE_IMAGES_BASE isValidOutageImageUrl acc u).1.messageMap.get B
      = some rec := by
  unfold processCommand
  dsimp only
  cases hmsg : (u.message <|> u.channel_post) with
  | none => exact hrec
  | some msg =>
    dsimp only
    cases hchat : msg.chat with
    | none => exact hrec
    | some chat =>
      dsimp only
      have hno' := hno msg chat hmsg hchat
      by_cases htext : (textOf msg == "") = true
      · simp only [htext, if_true]; exact hrec
      · simp only [htext, Bool.false_eq_true, if_false]
        by_cases hB : toString chat.id = B
        · have hwf := hno' hB
          subst hB
          unfold wellFormedText at hwf
          cases hcap : capMatch (textOf msg) with
          | some raw =>
            rw [hcap] at hwf
            have harg : trim raw = "" := by simpa using hwf
            have hnd : (toLowerCase "" == "-default") = false := by decide
            simp only [harg, hnd, Bool.false_eq_true, if_false, beq_self_eq_true, if_true,
              sendTextMessage_state, Registry.get_ensure, hrec, Option.getD_some]
          | none =>
            rw [hcap] at hwf
            dsimp only at hwf ⊢
            cases himg : imgMatch (textOf msg) with
            | none => exact hrec
            | some url =>
              rw [himg] at hwf
              have hv : isValidOutageImageUrl url = false := by simpa using hwf
              simp only [hv, Bool.not_false, if_true, sendTextMessage_state]
              exact hrec
        · have hB' : ¬ B = toString chat.id := fun h => hB h.symm
          cases hcap : capMatch (textOf msg) with
          | some raw =>
            dsimp only
            split_ifs <;>
              simp only [sendTextMessage_state, (deleteCommandMessage_map _ _ _ _).1,
                Registry.get_modify, Registry.get_ensure, hB', if_false, hrec]
          | none =>
            dsimp only
            cases himg : imgMatch (textOf msg) with
            | none => exact hrec
            | some url =>
              dsimp only
              simp only [verifyRemotePng_state, verifyRemotePng_ok, deleteMessage_ok,
                deleteMessage_state]
              split_ifs <;>
                simp only [sendTextMessage_state, (deleteCommandMessage_map _ _ _ _).1,
                  Registry.get_modify, Registry.get_ensure, hB', if_false, hrec]

/-- The command processor leaves the record of a known chat `B` unchanged unless the batch
holds a well-formed command of `B`. -/
theorem commands_frame_known_chat (remote : Remote) (OUTAGE_IMAGES_BASE : String)
    (isValidOutageImageUrl : String → Bool) (updates : List Update) (s : St)
    (B : String) (rec : ChatRecord) (hrec : s.messageMap.get B = some rec)
    (hno : ∀ u ∈ updates, ∀ msg chat, (u.message <|> u.channel_post) = some msg →
      msg.chat = some chat → toString chat.id = B →
      wellFormedText isValidOutageImageUrl (textOf msg) = false) :
    (processCommandUpdates remote OUTAGE_IMAGES_BASE isValidOutageImageUrl s
      updates).1.messageMap.get B = some rec := by
  unfold processCommandUpdates
  generalize ([] : List String) = handled
  induction updates generalizing s handled with
  | nil => exact hrec
  | cons u us ih =>
    simp only [List.foldl_cons]
    have h1 := processCommand_frame remote OUTAGE_IMAGES_BASE isValidOutageImageUrl
      (s, handled) u B rec hrec (hno u (by simp))
    have := ih (processCommand remote OUTAGE_IMAGES_BASE isValidOutageImageUrl
      (s, handled) u).1 h1 (fun u' hu' => hno u' (by simp [hu']))
      (processCommand remote OUTAGE_IMAGES_BASE isValidOutageImageUrl (s, handled) u).2
    exact this

/-- A caption command with an argument that is neither blank nor `-default` stores the
trimmed argument as the caption of its chat. -/
theorem processCommand_setCaption (remote : Remote) (OUTAGE_IMAGES_BASE : String)
    (isValidOutageImageUrl : String → Bool) (acc : St × List String) (u : Update)
    (msg : Message) (chat : Chat) (raw : String)
    (hmsg : (u.message <|> u.channel_post) = some msg) (hchat : msg.chat = some chat)
    (hmatch : capMatch (textOf msg) = some raw) (harg : trim raw ≠ "")
    (hnd : toLowerCase (trim raw) ≠ "-default") :
    (processCommand remote OUTAGE_IMAGES_BASE isValidOutageImageUrl acc u).1.messageMap.get
        (toString chat.id) =
      some { (acc.1.messageMap.get (toString chat.id)).getD {} with
        caption := some (trim raw) } := by
  have htext : (textOf msg == "") = false := by
    by_contra h
    have h' : textOf msg = "" := by simpa using h
    rw [h', capMatch_empty] at hmatch
    cases hmatch
  have harg' : (trim raw == "") = false := by simpa using harg
  have hnd' : (toLowerCase (trim raw) == "-default") = false := by simpa using hnd
  unfold processCommand
  simp only [hmsg, hchat, htext, hmatch, harg', hnd', Bool.false_eq_true, if_false,
    sendTextMessage_state, (deleteCommandMessage_map _ _ _ _).1, Registry.get_modify,
    Registry.get_ensure, if_true, Option.map_some']

/-- The second half of C9: a caption command of chat A next to a command of a known chat B
that is not well formed, in either order, leaves the record of B as it was and stores the
caption of A. -/
theorem caption_saved_next_to_malformed (remote : Remote) (OUTAGE_IMAGES_BASE : String)
    (isValidOutageImageUrl : String → Bool) (s : St) (uA uB : Update)
    (msgA msgB : Message) (chatA chatB : Chat) (recB : ChatRecord) (raw : String)
    (hmsgA : (uA.message <|> uA.channel_post) = some msgA) (hchatA : msgA.chat = some chatA)
    (hmatch : capMatch (textOf msgA) = some raw) (harg : trim raw ≠ "")
    (hnd : toLowerCase (trim raw) ≠ "-default")
    (hmsgB : (uB.message <|> uB.channel_post) = some msgB) (_hchatB : msgB.chat = some chatB)
    (hwfB : wellFormedText isValidOutageImageUrl (textOf msgB) = false)
    (hAB : toString chatA.id ≠ toString chatB.id)
    (hrecB : s.messageMap.get (toString chatB.id) = some recB)
    (batch : List Update) (hbatch : batch = [uA, uB] ∨ batch = [uB, uA]) :
    (processCommandUpdates remote OUTAGE_IMAGES_BASE isValidOutageImageUrl s
      batch).1.messageMap.get (toString chatB.id) = some recB ∧
    ((processCommandUpdates remote OUTAGE_IMAGES_BASE isValidOutageImageUrl s
      batch).1.messageMap.get (toString chatA.id)).bind (fun r => r.caption)
      = some (trim raw) := by
  have hnoA : ∀ msg chat, (uA.message <|> uA.channel_post) = some msg → msg.chat = some chat →
      toString chat.id = toString chatB.id →
      wellFormedText isValidOutageImageUrl (textOf msg) = false := by
    intro msg chat h1 h2 h3
    rw [hmsgA] at h1
    cases h1
    rw [hchatA] at h2
    cases h2
    exact absurd h3 hAB
  have hnoB : ∀ msg chat, (uB.message <|> uB.channel_post) = some msg → msg.chat = some chat →
      toString chat.id = toString chatB.id →
      wellFormedText isValidOutageImageUrl (textOf msg) = false := by
    intro msg chat h1 _ _
    rw [hmsgB] at h1
    cases h1
    exact hwfB
  have hnoBA : ∀ msg chat, (uB.message <|> uB.channel_post) = some msg → msg.chat = some chat →
      toString chat.id = toString chatA.id →
      wellFormedText isValidOutageImageUrl (textOf msg) = false := by
    intro msg chat h1 _ _
    rw [hmsgB] at h1
    cases h1
    exact hwfB
  constructor
  · apply commands_frame_known_chat _ _ _ _ _ _ _ hrecB
    intro u hu
    rcases hbatch with h | h <;> subst h <;> simp only [List.mem_cons, List.mem_singleton,
      List.mem_nil_iff, or_false] at hu <;> rcases hu with h | h <;> subst h <;>
      first | exact hnoA | exact hnoB
  · rcases hbatch with h | h <;> subst h <;>
      simp only [processCommandUpdates, List.foldl_cons, List.foldl_nil]
    · have h1 := processCommand_setCaption remote OUTAGE_IMAGES_BASE isValidOutageImageUrl
        (s, []) uA msgA chatA raw hmsgA hchatA hmatch harg hnd
      rw [processCommand_frame remote OUTAGE_IMAGES_BASE isValidOutageImageUrl _ uB
        (toString chatA.id) _ h1 hnoBA]
      rfl
    · rw [processCommand_setCaption remote OUTAGE_IMAGES_BASE isValidOutageImageUrl
        _ uA msgA chatA raw hmsgA hchatA hmatch harg hnd]
      rfl

/-! ## Ingest -/

theorem registerStep_frame (acc : St × List String) (u : Update) (c : String)
    (h : memberEventFor c u = false) :
    (registerStep acc u).1.messageMap.get c = acc.1.messageMap.get c := by
  unfold registerStep
  unfold memberEventFor at h
  dsimp only
  cases hm : u.my_chat_member with
  | none => rfl
  | some mcm =>
    rw [hm] at h
    dsimp only at h ⊢
    cases hc : mcm.chat with
    | none => rfl
    | some chat =>
      rw [hc] at h
      dsimp only at h ⊢
      by_cases hty : (chat.type != "channel" && chat.type != "supergroup" &&
          chat.type != "group") = true
      · simp only [hty, if_true]
      · have hne : c ≠ toString chat.id := by
          intro he
          subst he
          apply hty
          simp only [beq_self_eq_true, Bool.and_true, Bool.or_eq_false_iff,
            beq_eq_false_iff_ne] at h
          simp [h.1.1, h.1.2, h.2]
        simp only [hty, Bool.false_eq_true, if_false]
        have hrem := (touches_removeChat acc.1 (toString chat.id)).1 c hne
        split_ifs <;> first | exact hrem | rfl | simp [Registry.get_ensure, hne]

theorem registerStep_removal (acc : St × List String) (u : Update) (c : String)
    (h : memberEventFor c u = true) (hr : removalEvent u = true) :
    (registerStep acc u).1.messageMap.get c = none := by
  unfold registerStep
  unfold memberEventFor at h
  unfold removalEvent at hr
  dsimp only
  cases hm : u.my_chat_member with
  | none => rw [hm] at h; cases h
  | some mcm =>
    rw [hm] at h hr
    dsimp only at h hr ⊢
    cases hc : mcm.chat with
    | none => rw [hc] at h; cases h
    | some chat =>
      rw [hc] at h
      dsimp only at h ⊢
      simp only [Bool.and_eq_true, Bool.or_eq_true, beq_iff_eq] at h
      obtain ⟨ht, hcid⟩ := h
      subst hcid
      have h1 : (chat.type != "channel" && chat.type != "supergroup" && chat.type != "group")
          = false := by
        rcases ht with (ht | ht) | ht <;> simp [ht]
      simp only [h1, Bool.false_eq_true, if_false, hr, if_true]
      have : (removeChat acc.1 (toString chat.id)).2.messageMap.get (toString chat.id) = none := by
        rw [removeChat_map, Registry.get_delete]
        simp
      split_ifs <;> exact this

theorem sendTextMessage_ok (remote : Remote) (s : St) (c t : String) :
    (sendTextMessage remote s c t).1.1 = isOk (remote s.log.length (.sendMessage c t)) := by
  unfold sendTextMessage call isOk
  dsimp only
  cases hr : remote s.log.length (.sendMessage c t) with
  | networkError => rfl
  | json j => cases hok : j.ok <;> simp [hok]

theorem sendWelcomeMessage_frame (remote : Remote) (s : St) (k c : String)
    (h : k = c → ∀ n t, isOk (remote n (.sendMessage c t)) = false) :
    (sendWelcomeMessage remote s k).messageMap.get c = s.messageMap.get c := by
  unfold sendWelcomeMessage
  dsimp only
  rw [sendTextMessage_ok, sendTextMessage_state]
  by_cases hk : k = c
  · subst hk
    rw [h rfl s.log.length welcomeText]
    rfl
  · have hne : ¬ c = k := fun e => hk e.symm
    split_ifs <;> simp [Registry.get_modify, Registry.get_ensure, hne]

/-- What holds of C7: when the last membership notice for chat `c` in the batch reports the
bot left, kicked or restricted, `registerFromUpdates` leaves no record for `c`, and neither
does the welcome phase unless the remote accepts a welcome message for `c`. -/
theorem ingest_removes_unless_welcomed (remote : Remote) (s : St) (pre post : List Update)
    (u : Update) (c : String)
    (hu : memberEventFor c u = true) (hr : removalEvent u = true)
    (hpost : ∀ v ∈ post, memberEventFor c v = false)
    (hfail : ∀ n t, isOk (remote n (.sendMessage c t)) = false) :
    (registerFromUpdates s (pre ++ u :: post)).1.messageMap.get c = none ∧
    (ingest remote s (pre ++ u :: post)).messageMap.get c = none := by
  have hfold : ∀ (L : List Update) (acc : St × List String),
      (∀ v ∈ L, memberEventFor c v = false) →
      (L.foldl registerStep acc).1.messageMap.get c = acc.1.messageMap.get c := by
    intro L
    induction L with
    | nil => intro acc _; rfl
    | cons v vs ih =>
      intro acc hv
      rw [List.foldl_cons, ih _ (fun w hw => hv w (by simp [hw])),
        registerStep_frame acc v c (hv v (by simp))]
  have hreg : (registerFromUpdates s (pre ++ u :: post)).1.messageMap.get c = none := by
    unfold registerFromUpdates
    have : ((pre ++ u :: post).foldl registerStep (s, [])).1.messageMap.get c = none := by
      rw [List.foldl_append, List.foldl_cons, hfold post _ hpost]
      exact registerStep_removal _ u c hu hr
    dsimp only
    split_ifs <;> exact this
  refine ⟨hreg, ?_⟩
  unfold ingest welcomePhase
  dsimp only
  generalize (registerFromUpdates s (pre ++ u :: post)).2 = newly
  generalize (registerFromUpdates s (pre ++ u :: post)).1 = s1 at hreg
  induction newly generalizing s1 with
  | nil => exact hreg
  | cons k ks ih =>
    rw [List.foldl_cons]
    apply ih
    rw [sendWelcomeMessage_frame remote s1 k c (fun _ => hfail)]
    exact hreg

/-! ## Commands of unknown chats -/

/-- C11 (counterexample). Chat -5 has no record and sends a caption command: the command
processor creates a record for the chat, holding the caption. -/
theorem caption_command_registers_unknown_chat :
    (processCommandUpdates okRemote "https://x/" (fun _ => true)
      { messageMap := [], mapDirty := false }
      [textUpdate 1 "/graphenko_caption Outages today"]).1.messageMap =
      [("-5", { caption := some "Outages today" })] := by
  decide

/-- C11 (amended). For every registry and every inbound text message whose chat has no
record: the command processor leaves the registry and the dirty flag unchanged unless the text
is a caption command or an image command whose url passes the format check and the remote
verification; a caption command whose argument is neither blank nor `-default` creates the
record of the chat with that caption, and an image command that passes both checks creates it
with that url, the dirty flag raised. -/
theorem commands_of_unknown_chat (remote : Remote) (OUTAGE_IMAGES_BASE : String)
    (isValidOutageImageUrl : String → Bool) (s : St) (u : Update) (msg : Message)
    (chat : Chat)
    (hmsg : (u.message <|> u.channel_post) = some msg) (hchat : msg.chat = some chat)
    (hnone : s.messageMap.get (toString chat.id) = none) :
    (capMatch (textOf msg) = none →
      (∀ url, imgMatch (textOf msg) = some url → isValidOutageImageUrl url = true →
        isOk (remote s.log.length (.verifyRemotePng url)) = false) →
      (processCommandUpdates remote OUTAGE_IMAGES_BASE isValidOutageImageUrl s
        [u]).1.messageMap = s.messageMap ∧
      (processCommandUpdates remote OUTAGE_IMAGES_BASE isValidOutageImageUrl s
        [u]).1.mapDirty = s.mapDirty) ∧
    (∀ raw, capMatch (textOf msg) = some raw → trim raw ≠ "" →
      toLowerCase (trim raw) ≠ "-default" →
      (processCommandUpdates remote OUTAGE_IMAGES_BASE isValidOutageImageUrl s
        [u]).1.messageMap.get (toString chat.id) = some { caption := some (trim raw) } ∧
      (processCommandUpdates remote OUTAGE_IMAGES_BASE isValidOutageImageUrl s
        [u]).1.mapDirty = true) ∧
    (∀ url, capMatch (textOf msg) = none → imgMatch (textOf msg) = some url →
      isValidOutageImageUrl url = true →
      isOk (remote s.log.length (.verifyRemotePng url)) = true →
      (processCommandUpdates remote OUTAGE_IMAGES_BASE isValidOutageImageUrl s
        [u]).1.messageMap.get (toString chat.id) = some { image_url := some url } ∧
      (processCommandUpdates remote OUTAGE_IMAGES_BASE isValidOutageImageUrl s
        [u]).1.mapDirty = true) := by
  refine ⟨?_, ?_, ?_⟩
  · intro hcap himg
    unfold processCommandUpdates processCommand
    simp only [List.foldl_cons, List.foldl_nil, hmsg, hchat, hcap]
    by_cases htext : (textOf msg == "") = true
    · simp only [htext, if_true, and_self]
    · simp only [htext, Bool.false_eq_true, if_false]
      cases hm : imgMatch (textOf msg) with
      | none => exact ⟨rfl, rfl⟩
      | some url =>
        dsimp only
        by_cases hv : isValidOutageImageUrl url = true
        · have hver := himg url hm hv
          simp only [hv, Bool.not_true, Bool.false_eq_true, if_false, verifyRemotePng_ok,
            hver, Bool.not_false, if_true, verifyRemotePng_state, sendTextMessage_state,
            and_self]
        · have hv' : isValidOutageImageUrl url = false := by simpa using hv
          simp only [hv', Bool.not_false, if_true, sendTextMessage_state, and_self]
  · intro raw hcap harg hnd
    have hset := processCommand_setCaption remote OUTAGE_IMAGES_BASE isValidOutageImageUrl
      (s, []) u msg chat raw hmsg hchat hcap harg hnd
    rw [hnone] at hset
    refine ⟨hset, ?_⟩
    have htext : (textOf msg == "") = false := by
      by_contra h
      have h' : textOf msg = "" := by simpa using h
      rw [h', capMatch_empty] at hcap
      cases hcap
    have harg' : (trim raw == "") = false := by simpa using harg
    have hnd' : (toLowerCase (trim raw) == "-default") = false := by simpa using hnd
    unfold processCommandUpdates processCommand
    simp only [List.foldl_cons, List.foldl_nil, hmsg, hchat, htext, hcap, harg', hnd',
      Bool.false_eq_true, if_false, sendTextMessage_state, (deleteCommandMessage_map _ _ _ _).2]
  · intro url hcap hm hv hver
    have h := image_command_stores_url remote OUTAGE_IMAGES_BASE isValidOutageImageUrl s u
      msg chat url hmsg hchat hcap hm hv hver
    rw [hnone] at h
    refine ⟨?_, h.2⟩
    rw [h.1]
    simp [truthyNum]

/-- Witness of `commands_of_unknown_chat`. -/
theorem commands_of_unknown_chat_witness :
    (processCommandUpdates okRemote "https://x/" (fun _ => true)
      { messageMap := exampleRegistry, mapDirty := false }
      [textUpdate 1 "good morning"]).1.messageMap = exampleRegistry ∧
    (processCommandUpdates okRemote "https://x/" (fun _ => true)
      { messageMap := exampleRegistry, mapDirty := false }
      [textUpdate 1 "good morning"]).1.mapDirty = false :=
  (commands_of_unknown_chat okRemote "https://x/" (fun _ => true)
    { messageMap := exampleRegistry, mapDirty := false } (textUpdate 1 "good morning")
    { chat := some { id := -5, type := "supergroup" }, text := some "good morning",
      message_id := some 10 }
    { id := -5, type := "supergroup" } rfl rfl (by decide)).1 (by decide)
    (fun url h => by simp [show imgMatch (textOf
      { chat := some { id := -5, type := "supergroup" }, text := some "good morning",
        message_id := some 10 }) = none from by decide] at h)

end OutageBot
